import Mathlib

/-!
Shallow embedding of the corrosion Game Boy emulator core (Rust) in Lean 4.

Each definition mirrors one item of the Rust source, keeping the source's
names where Lean allows it:
* `src/src/hardware/register_bank.rs` — register file, flags, PC/SP;
* `src/src/hardware/ram.rs`, `ram/memory_mapping.rs`, `ram/chips.rs`,
  `ram/io_registers.rs`, `counters/divider.rs`, `counters/timer.rs`,
  `screen/position.rs`, `audio.rs` — the memory fabric;
* `src/src/hardware/alu.rs` — ALU primitives;
* `src/src/instructions/...` — operands, changes, commit, and the
  operation kernels the claims touch;
* `src/src/decoder.rs`, `decoder/prefixed.rs` — fetch and decode.

Machine integers are `Nat` with explicit `% 256` / `% 65536` at the points
where the Rust `u8`/`u16` arithmetic wraps.  Fallible Rust functions
(returning `Result`) become `Except`.  Stateful code is explicit state
passing: a Rust `&mut Cpu` method of result `T` becomes a Lean function
`Cpu → Cpu × Except ExecutionError T`.
-/

namespace Corrosion

/-- Decidable equality on `Except`, used to evaluate results at concrete
inputs. -/
instance instDecEqExcept [DecidableEq ε] [DecidableEq α] : DecidableEq (Except ε α)
  | .ok a, .ok b =>
    if h : a = b then .isTrue (by rw [h])
    else .isFalse (by intro hh; cases hh; exact h rfl)
  | .ok _, .error _ => .isFalse (by intro h; cases h)
  | .error _, .ok _ => .isFalse (by intro h; cases h)
  | .error e, .error f =>
    if h : e = f then .isTrue (by rw [h])
    else .isFalse (by intro hh; cases hh; exact h rfl)

/-- Mirror of `SingleRegisters` (register_bank.rs), discriminants A=0 … L=7. -/
inductive SingleRegisters where
  | A | B | C | D | E | F | H | L
deriving DecidableEq

/-- `IntoPrimitive` discriminant of `SingleRegisters`. -/
def SingleRegisters.index : SingleRegisters → Nat
  | .A => 0 | .B => 1 | .C => 2 | .D => 3
  | .E => 4 | .F => 5 | .H => 6 | .L => 7

/-- Mirror of `DoubleRegisters` (register_bank.rs), discriminants AF=0 … HL=3. -/
inductive DoubleRegisters where
  | AF | BC | DE | HL
deriving DecidableEq

/-- `IntoPrimitive` discriminant of `DoubleRegisters`. -/
def DoubleRegisters.index : DoubleRegisters → Nat
  | .AF => 0 | .BC => 1 | .DE => 2 | .HL => 3

/-- Mirror of `BitFlags` (register_bank.rs): bit positions inside register F. -/
inductive BitFlags where
  | Zero | Subtraction | HalfCarry | Carry
deriving DecidableEq

/-- Bit position of each flag (Zero=7, Subtraction=6, HalfCarry=5, Carry=4). -/
def BitFlags.bit : BitFlags → Nat
  | .Zero => 7 | .Subtraction => 6 | .HalfCarry => 5 | .Carry => 4

/-- Mirror of `RegisterBankError` (register_bank.rs). -/
inductive RegisterBankError where
  | AddressOutOfRange (address : Nat)
  | InvalidDoubleRegister (address : Nat)
deriving DecidableEq

/-- Mirror of `RegisterBank`: the `[u8; 8]` array, one field per cell.
`r0`…`r7` are the eight bytes indexed 0…7 (A,B,C,D,E,F,H,L). -/
structure RegisterBank where
  r0 : Nat
  r1 : Nat
  r2 : Nat
  r3 : Nat
  r4 : Nat
  r5 : Nat
  r6 : Nat
  r7 : Nat
deriving DecidableEq

namespace RegisterBank

/-- `RegisterBank::new()`: all cells zero. -/
def new : RegisterBank := ⟨0, 0, 0, 0, 0, 0, 0, 0⟩

/-- `RegisterBank::read_single`: the `[u8;8].get(address)` bounds check. -/
def readSingle (bank : RegisterBank) (address : Nat) : Except RegisterBankError Nat :=
  match address with
  | 0 => .ok bank.r0
  | 1 => .ok bank.r1
  | 2 => .ok bank.r2
  | 3 => .ok bank.r3
  | 4 => .ok bank.r4
  | 5 => .ok bank.r5
  | 6 => .ok bank.r6
  | 7 => .ok bank.r7
  | _ => .error (.AddressOutOfRange address)

/-- `RegisterBank::write_single`: stores the byte unconditionally (note: no
masking of the flag register's low nibble happens here in the source). -/
def writeSingle (bank : RegisterBank) (address : Nat) (value : Nat) :
    Except RegisterBankError RegisterBank :=
  match address with
  | 0 => .ok { bank with r0 := value }
  | 1 => .ok { bank with r1 := value }
  | 2 => .ok { bank with r2 := value }
  | 3 => .ok { bank with r3 := value }
  | 4 => .ok { bank with r4 := value }
  | 5 => .ok { bank with r5 := value }
  | 6 => .ok { bank with r6 := value }
  | 7 => .ok { bank with r7 := value }
  | _ => .error (.AddressOutOfRange address)

/-- `RegisterBank::get_double_address`: pair index to (high, low) cell indices. -/
def getDoubleAddress (address : Nat) : Option (Nat × Nat) :=
  match address with
  | 0 => some (0, 5)
  | 1 => some (1, 2)
  | 2 => some (3, 4)
  | 3 => some (6, 7)
  | _ => none

/-- `RegisterBank::read_double`: `u16::from_be_bytes([high, low])` = high*256+low. -/
def readDouble (bank : RegisterBank) (address : Nat) : Except RegisterBankError Nat :=
  match getDoubleAddress address with
  | none => .error (.InvalidDoubleRegister address)
  | some (highAddress, lowAddress) =>
    match bank.readSingle highAddress with
    | .error e => .error e
    | .ok high =>
      match bank.readSingle lowAddress with
      | .error e => .error e
      | .ok low => .ok (high * 256 + low)

/-- `RegisterBank::write_double`: splits `value.to_be_bytes()` and stores the
two cells directly (no masking anywhere, including an AF write's F half). -/
def writeDouble (bank : RegisterBank) (address : Nat) (value : Nat) :
    Except RegisterBankError RegisterBank :=
  match getDoubleAddress address with
  | none => .error (.InvalidDoubleRegister address)
  | some (highAddress, lowAddress) =>
    let high := value / 256 % 256
    let low := value % 256
    match bank.writeSingle highAddress high with
    | .error e => .error e
    | .ok bank1 => bank1.writeSingle lowAddress low

/-- `RegisterBank::read_bit_flag`: tests the flag's bit of cell 5 (register F). -/
def readBitFlag (bank : RegisterBank) (flag : BitFlags) : Bool :=
  Nat.testBit bank.r5 flag.bit

/-- `RegisterBank::write_bit_flag`: clears then possibly sets the flag's bit
of register F (`(flag_register & !bitmask) | shifted_bit` on `u8`). -/
def writeBitFlag (bank : RegisterBank) (flag : BitFlags) (bit : Bool) : RegisterBank :=
  let bitmask := 1 <<< flag.bit
  let shiftedBit := if bit then bitmask else 0
  { bank with r5 := (bank.r5 &&& (255 ^^^ bitmask)) ||| shiftedBit }

/-- `RegisterBank::read_single_named` (the index is known valid, so the Rust
`unwrap` never panics). -/
def readSingleNamed (bank : RegisterBank) (reg : SingleRegisters) : Nat :=
  match bank.readSingle reg.index with
  | .ok v => v
  | .error _ => 0

/-- `RegisterBank::write_single_named`. -/
def writeSingleNamed (bank : RegisterBank) (reg : SingleRegisters) (value : Nat) :
    RegisterBank :=
  match bank.writeSingle reg.index value with
  | .ok bank1 => bank1
  | .error _ => bank

/-- `RegisterBank::read_double_named`. -/
def readDoubleNamed (bank : RegisterBank) (reg : DoubleRegisters) : Nat :=
  match bank.readDouble reg.index with
  | .ok v => v
  | .error _ => 0

/-- `RegisterBank::write_double_named`. -/
def writeDoubleNamed (bank : RegisterBank) (reg : DoubleRegisters) (value : Nat) :
    RegisterBank :=
  match bank.writeDouble reg.index value with
  | .ok bank1 => bank1
  | .error _ => bank

end RegisterBank

/-- Mirror of `RamError` (ram/error.rs). -/
inductive RamError where
  | InvalidAddress (address : Nat)
  | UnmappedRegion (address : Nat)
  | WriteOnRom (address : Nat)
deriving DecidableEq

/-- `RamError::adjust_for_offset`: re-bases a chip-relative error address. -/
def RamError.adjustForOffset : RamError → Nat → RamError
  | .InvalidAddress a, offset => .InvalidAddress (a + offset)
  | .UnmappedRegion a, offset => .UnmappedRegion (a + offset)
  | .WriteOnRom a, offset => .WriteOnRom (a + offset)

/-- Result adaptation of `map_err(|e| e.adjust_for_offset(offset))`. -/
def adjustResult (offset : Nat) : Except RamError α → Except RamError α
  | .ok v => .ok v
  | .error e => .error (e.adjustForOffset offset)

/-- Mirror of `Timer` (counters/timer.rs).  `selectedClockSpeed` is the
two-bit `InputClockSelect` discriminant (0…3). -/
structure Timer where
  enabled : Bool
  selectedClockSpeed : Nat
  counter : Nat
  modulo : Nat
  ticks : Nat
deriving DecidableEq

/-- `InputClockSelect::freq`. -/
def clockFreq (sel : Nat) : Nat :=
  match sel with
  | 0 => 1024
  | 1 => 16
  | 2 => 64
  | _ => 256

namespace Timer

/-- `Timer::get_timer_control`: clock-select bits plus the enable bit (bit 2). -/
def getTimerControl (t : Timer) : Nat :=
  t.selectedClockSpeed ||| (if t.enabled then 1 <<< 2 else 0)

/-- `Timer::set_timer_control`. -/
def setTimerControl (t : Timer) (value : Nat) : Timer :=
  let maskedClockSpeed := value &&& 0b11
  let enabled := value &&& (1 <<< 2) != 0
  let t1 := { t with selectedClockSpeed := maskedClockSpeed, enabled := enabled }
  { t1 with ticks := t1.ticks % clockFreq t1.selectedClockSpeed }

/-- `Rom for Timer::read_byte`. -/
def readByte (t : Timer) (address : Nat) : Except RamError Nat :=
  match address with
  | 0 => .ok t.counter
  | 1 => .ok t.modulo
  | 2 => .ok t.getTimerControl
  | _ => .error (.InvalidAddress address)

/-- `Ram for Timer::write_byte` (the counter cell rejects writes). -/
def writeByte (t : Timer) (address : Nat) (value : Nat) : Except RamError Timer :=
  match address with
  | 0 => .error (.WriteOnRom 0)
  | 1 => .ok { t with modulo := value }
  | 2 => .ok (t.setTimerControl value)
  | _ => .error (.InvalidAddress address)

end Timer

/-- Mirror of `ScreenCord` (screen/position.rs); `y` sits before `x` in memory. -/
structure ScreenCord where
  y : Nat
  x : Nat
deriving DecidableEq

namespace ScreenCord

/-- `Rom for ScreenCord::read_byte`.  The source returns `y` at both
sub-addresses 0 and 1; this is kept verbatim. -/
def readByte (s : ScreenCord) (address : Nat) : Except RamError Nat :=
  match address with
  | 0 => .ok s.y
  | 1 => .ok s.y
  | _ => .error (.InvalidAddress address)

/-- `Ram for ScreenCord::write_byte`. -/
def writeByte (s : ScreenCord) (address : Nat) (value : Nat) :
    Except RamError ScreenCord :=
  match address with
  | 0 => .ok { s with y := value }
  | 1 => .ok { s with x := value }
  | _ => .error (.InvalidAddress address)

end ScreenCord

/-- A `RamChip<S>` / `RomChip<S>` (ram/chips.rs): contents as a function from
sub-address to byte; the size bound `S` lives in the access functions, exactly
as the `[u8; S].get` bounds checks do. -/
def chipRead (chip : Nat → Nat) (size : Nat) (address : Nat) : Except RamError Nat :=
  if address < size then .ok (chip address) else .error (.InvalidAddress address)

/-- `Ram for RamChip::write_byte`. -/
def chipWrite (chip : Nat → Nat) (size : Nat) (address : Nat) (value : Nat) :
    Except RamError (Nat → Nat) :=
  if address < size then
    .ok (fun a => if a = address then value else chip a)
  else .error (.InvalidAddress address)

/-- Mirror of `IoRegistersMemoryMappingRegion` (ram/io_registers.rs). -/
inductive IoRegion where
  | JoypadInput
  | SerialTransfer
  | DividerRegister
  | Timers
  | Audio
  | Wave
  | LcdControl
  | LcdStatus
  | ScreenScroll
  | ScreenPosition
  | Bgp
deriving DecidableEq

/-- A `MemoryMappingEntry` (ram/memory_mapping.rs): region tag, offset, size. -/
structure MappingEntry (R : Type) where
  region : R
  offset : Nat
  size : Nat

/-- `MemoryMappingEntry::mapped_here`:
`address >= offset && (address - offset) < size`. -/
def MappingEntry.mappedHere (e : MappingEntry R) (address : Nat) : Bool :=
  decide (e.offset ≤ address ∧ address - e.offset < e.size)

/-- `IO_REGISTER_MAPPING_ENTRIES` (ram/io_registers.rs), in source order. -/
def ioRegisterMappingEntries : List (MappingEntry IoRegion) :=
  [ ⟨.JoypadInput, 0x0, 1⟩,
    ⟨.SerialTransfer, 1, 0x2⟩,
    ⟨.DividerRegister, 0x4, 0x1⟩,
    ⟨.Timers, 0x5, 0x3⟩,
    ⟨.Audio, 0x10, 0x17⟩,
    ⟨.Wave, 0x30, 0x10⟩,
    ⟨.LcdControl, 0x40, 0x1⟩,
    ⟨.LcdStatus, 0x41, 0x1⟩,
    ⟨.ScreenScroll, 0x42, 0x2⟩,
    ⟨.ScreenPosition, 0x4A, 0x2⟩,
    ⟨.Bgp, 0x47, 0x1⟩ ]

/-- `MemoryMapping::find_mapping`: first entry that maps the address, else
`UnmappedRegion(address)`. -/
def findMappingIn (entries : List (MappingEntry R)) (address : Nat) :
    Except RamError (MappingEntry R) :=
  match entries.find? (fun e => e.mappedHere address) with
  | some e => .ok e
  | none => .error (.UnmappedRegion address)

/-- Mirror of `IoRegistersMemoryMapping` (ram/io_registers.rs): the state of
every chip behind the I/O window.  `divider` is the 16-bit internal counter of
`DividerRegister`; `serial` and `wave` are `RamChip<2>` / `RamChip<0x10>`. -/
structure IoRegs where
  joypadInput : Nat
  serialTransfer : Nat → Nat
  dividerRegister : Nat
  timer : Timer
  wave : Nat → Nat
  lcdControl : Nat
  lcdStatus : Nat
  screenScroll : ScreenCord
  screenPosition : ScreenCord
  bgp : Nat

namespace IoRegs

/-- `DividerRegister`'s `Rom::read_byte`: only the high byte of the 16-bit
counter is visible at sub-address 0. -/
def dividerReadByte (divider : Nat) (address : Nat) : Except RamError Nat :=
  if address = 0 then .ok (divider / 256 % 256) else .error (.InvalidAddress address)

/-- Per-region read dispatch: `get_rom` composed with each chip's
`read_byte` (io_registers.rs `get_rom` plus the chip impls). -/
def regionReadByte (io : IoRegs) (region : IoRegion) (address : Nat) :
    Except RamError Nat :=
  match region with
  | .JoypadInput =>
    if address = 0 then .ok io.joypadInput else .error (.InvalidAddress address)
  | .SerialTransfer => chipRead io.serialTransfer 2 address
  | .DividerRegister => dividerReadByte io.dividerRegister address
  | .Timers => io.timer.readByte address
  | .Audio => .ok 0
  | .Wave => chipRead io.wave 0x10 address
  | .LcdControl =>
    if address = 0 then .ok io.lcdControl else .error (.InvalidAddress address)
  | .LcdStatus =>
    if address = 0 then .ok io.lcdStatus else .error (.InvalidAddress address)
  | .ScreenScroll => io.screenScroll.readByte address
  | .ScreenPosition => io.screenPosition.readByte address
  | .Bgp =>
    if address = 0 then .ok io.bgp else .error (.InvalidAddress address)

/-- Per-region write dispatch, mirroring `get_ram` (io_registers.rs) composed
with each chip's `write_byte`.  Note the source's `get_ram` arm for
`DividerRegister` returns `&mut self.serial_transfer`, so writes routed to the
divider land in the serial-transfer chip; kept verbatim. -/
def regionWriteByte (io : IoRegs) (region : IoRegion) (address : Nat) (value : Nat) :
    Except RamError IoRegs :=
  match region with
  | .JoypadInput =>
    if address = 0 then .ok { io with joypadInput := value }
    else .error (.InvalidAddress address)
  | .SerialTransfer =>
    match chipWrite io.serialTransfer 2 address value with
    | .ok chip => .ok { io with serialTransfer := chip }
    | .error e => .error e
  | .DividerRegister =>
    match chipWrite io.serialTransfer 2 address value with
    | .ok chip => .ok { io with serialTransfer := chip }
    | .error e => .error e
  | .Timers =>
    match io.timer.writeByte address value with
    | .ok t => .ok { io with timer := t }
    | .error e => .error e
  | .Audio => .ok io
  | .Wave =>
    match chipWrite io.wave 0x10 address value with
    | .ok chip => .ok { io with wave := chip }
    | .error e => .error e
  | .LcdControl =>
    if address = 0 then .ok { io with lcdControl := value }
    else .error (.InvalidAddress address)
  | .LcdStatus =>
    if address = 0 then .ok { io with lcdStatus := value }
    else .error (.InvalidAddress address)
  | .ScreenScroll =>
    match io.screenScroll.writeByte address value with
    | .ok s => .ok { io with screenScroll := s }
    | .error e => .error e
  | .ScreenPosition =>
    match io.screenPosition.writeByte address value with
    | .ok s => .ok { io with screenPosition := s }
    | .error e => .error e
  | .Bgp =>
    if address = 0 then .ok { io with bgp := value }
    else .error (.InvalidAddress address)

/-- `Rom::read_byte` for the I/O window (the blanket impl over
`RegionToMemoryMapper` in ram/memory_mapping.rs, instantiated at
`IoRegistersMemoryMapping`). -/
def readByte (io : IoRegs) (address : Nat) : Except RamError Nat :=
  match findMappingIn ioRegisterMappingEntries address with
  | .error e => .error e
  | .ok entry =>
    adjustResult entry.offset (io.regionReadByte entry.region (address - entry.offset))

/-- `Ram::write_byte` for the I/O window. -/
def writeByte (io : IoRegs) (address : Nat) (value : Nat) : Except RamError IoRegs :=
  match findMappingIn ioRegisterMappingEntries address with
  | .error e => .error e
  | .ok entry =>
    adjustResult entry.offset
      (io.regionWriteByte entry.region (address - entry.offset) value)

end IoRegs

/-- Mirror of `RamRegion` (ram.rs). -/
inductive RamRegion where
  | Bootstrap
  | WorkingRam
  | VideoRam
  | IoRegisters
  | Oam
deriving DecidableEq

/-- `RAM_MAPPINGS` (ram.rs lines 111–137), in source order. -/
def ramMappings : List (MappingEntry RamRegion) :=
  [ ⟨.Bootstrap, 0x0000, 0x100⟩,
    ⟨.WorkingRam, 0xC000, 0x2000⟩,
    ⟨.VideoRam, 0x8000, 0x2000⟩,
    ⟨.IoRegisters, 0xFF00, 0x80⟩,
    ⟨.Oam, 0xFE00, 0xA0⟩ ]

/-- The top-level memory fabric state: one field per chip of `MappedRam`
(ram.rs) with the sub-mapped I/O window.  Chip contents are functions from
sub-address to byte. -/
structure MappedMemory where
  bootRom : Nat → Nat
  workingRam : Nat → Nat
  videoRam : Nat → Nat
  io : IoRegs
  oam : Nat → Nat

namespace MappedMemory

/-- Per-region read: `get_mapped_ram` composed with the chip's `read_byte`. -/
def regionReadByte (mem : MappedMemory) (region : RamRegion) (address : Nat) :
    Except RamError Nat :=
  match region with
  | .Bootstrap => chipRead mem.bootRom 0x100 address
  | .WorkingRam => chipRead mem.workingRam 0x2000 address
  | .VideoRam => chipRead mem.videoRam 0x2000 address
  | .IoRegisters => mem.io.readByte address
  | .Oam => chipRead mem.oam 0xA0 address

/-- Per-region write.  The bootstrap chip is a ROM: the write-access arm
surfaces `WriteOnRom` (the `RegionToMemoryMapperError::WriteOnRom` path of
ram/memory_mapping.rs; the bootstrap region's offset is 0, so the address
needs no re-basing). -/
def regionWriteByte (mem : MappedMemory) (region : RamRegion) (address : Nat)
    (value : Nat) : Except RamError MappedMemory :=
  match region with
  | .Bootstrap => .error (.WriteOnRom address)
  | .WorkingRam =>
    match chipWrite mem.workingRam 0x2000 address value with
    | .ok chip => .ok { mem with workingRam := chip }
    | .error e => .error e
  | .VideoRam =>
    match chipWrite mem.videoRam 0x2000 address value with
    | .ok chip => .ok { mem with videoRam := chip }
    | .error e => .error e
  | .IoRegisters =>
    match mem.io.writeByte address value with
    | .ok io => .ok { mem with io := io }
    | .error e => .error e
  | .Oam =>
    match chipWrite mem.oam 0xA0 address value with
    | .ok chip => .ok { mem with oam := chip }
    | .error e => .error e

/-- `Rom::read_byte` of the mapped memory (ram.rs): find the mapping, read at
the region-relative address, re-base any error by the region offset. -/
def readByte (mem : MappedMemory) (address : Nat) : Except RamError Nat :=
  match findMappingIn ramMappings address with
  | .error e => .error e
  | .ok entry =>
    adjustResult entry.offset (mem.regionReadByte entry.region (address - entry.offset))

/-- `Ram::write_byte` of the mapped memory. -/
def writeByte (mem : MappedMemory) (address : Nat) (value : Nat) :
    Except RamError MappedMemory :=
  match findMappingIn ramMappings address with
  | .error e => .error e
  | .ok entry =>
    adjustResult entry.offset
      (mem.regionWriteByte entry.region (address - entry.offset) value)

/-- `Rom::read_double_byte` (ram/traits.rs): little-endian, low byte at
`address`, high byte at `address.wrapping_add(1)`. -/
def readDoubleByte (mem : MappedMemory) (address : Nat) : Except RamError Nat :=
  match mem.readByte address with
  | .error e => .error e
  | .ok low =>
    match mem.readByte ((address + 1) % 65536) with
    | .error e => .error e
    | .ok high => .ok (high * 256 + low)

/-- `Ram::write_double_byte` (ram/traits.rs): low byte first, then high byte
at `address.wrapping_add(1)`. -/
def writeDoubleByte (mem : MappedMemory) (address : Nat) (value : Nat) :
    Except RamError MappedMemory :=
  match mem.writeByte address (value % 256) with
  | .error e => .error e
  | .ok mem1 => mem1.writeByte ((address + 1) % 65536) (value / 256 % 256)

end MappedMemory

/-- Mirror of `ExecutionError` (instructions.rs). -/
inductive ExecutionError where
  | RamError (e : RamError)
  | InvalidOpcode (opcode : Nat)
deriving DecidableEq

/-- Mirror of `Cpu` (hardware/cpu.rs): register bank, mapped memory, PC, SP
and the interrupt-master-enable flag. -/
structure Cpu where
  registerBank : RegisterBank
  mappedRam : MappedMemory
  pc : Nat
  sp : Nat
  ime : Bool

namespace Cpu

/-- `Cpu::next_pc`: returns the current PC and post-increments it
(`u16::overflowing_add(1)` wraps). -/
def nextPc (cpu : Cpu) : Nat × Cpu :=
  (cpu.pc, { cpu with pc := (cpu.pc + 1) % 65536 })

/-- `Cpu::next_byte`: consume the PC (incrementing it first), then read that
byte; a read failure leaves the PC already incremented. -/
def nextByte (cpu : Cpu) : Cpu × Except ExecutionError Nat :=
  let (pcValue, cpu1) := cpu.nextPc
  match cpu1.mappedRam.readByte pcValue with
  | .ok byte => (cpu1, .ok byte)
  | .error e => (cpu1, .error (.RamError e))

end Cpu

/-- Mirror of `AluU8Result` (hardware/alu.rs). -/
structure AluU8Result where
  result : Nat
  sub : Bool
  halfCarry : Bool
  carry : Bool
deriving DecidableEq

/-- `half_carry_for_add_u8`. -/
def halfCarryForAddU8 (left right : Nat) (carry : Bool) : Bool :=
  let c := if carry then 1 else 0
  decide (0x0F < (left &&& 0x0F) + (right &&& 0x0F) + c)

/-- `add_with_carry_u8`: two chained `overflowing_add`s on `u8`. -/
def addWithCarryU8 (left right : Nat) (carry : Bool) : AluU8Result :=
  let carryVal := if carry then 1 else 0
  let firstOverflow := decide (255 < left + right)
  let result1 := (left + right) % 256
  let secondOverflow := decide (255 < result1 + carryVal)
  let result := (result1 + carryVal) % 256
  { result := result
    sub := false
    halfCarry := halfCarryForAddU8 left right carry
    carry := firstOverflow || secondOverflow }

/-- `add_u8`. -/
def addU8 (left right : Nat) : AluU8Result :=
  addWithCarryU8 left right false

/-- Mirror of `BranchCondition` (instructions/jump.rs). -/
inductive BranchCondition where
  | Unconditional
  | TestFlag (flag : BitFlags) (branchIfEquals : Bool)
deriving DecidableEq

/-- Mirror of `DoubleByteSource` (instructions/base/double_byte.rs). -/
inductive DoubleByteSource where
  | DoubleRegister (reg : DoubleRegisters)
  | Immediate (value : Nat)
  | StackPointer
deriving DecidableEq

/-- `DoubleByteSource::read`. -/
def DoubleByteSource.read (src : DoubleByteSource) (cpu : Cpu) :
    Except ExecutionError Nat :=
  match src with
  | .DoubleRegister reg => .ok (cpu.registerBank.readDoubleNamed reg)
  | .Immediate value => .ok value
  | .StackPointer => .ok cpu.sp

/-- Mirror of `DoubleByteDestination` (instructions/base/double_byte.rs). -/
inductive DoubleByteDestination where
  | DoubleRegister (reg : DoubleRegisters)
  | StackPointer
  | AddressInImmediate (address : Nat)
deriving DecidableEq

/-- Mirror of `ByteSource` (instructions/base/byte.rs). -/
inductive ByteSource where
  | SingleRegister (reg : SingleRegisters)
  | AddressInRegister (reg : DoubleRegisters)
  | OffsetAddressInRegister (base : Nat) (offset : SingleRegisters)
  | AddressInImmediate (address : Nat)
  | Immediate (value : Nat)
deriving DecidableEq

/-- `ByteSource::read_from_acc()` = `SingleRegister(A)`. -/
def ByteSource.readFromAcc : ByteSource := .SingleRegister .A

/-- `ByteSource::read`. -/
def ByteSource.read (src : ByteSource) (cpu : Cpu) : Except ExecutionError Nat :=
  match src with
  | .SingleRegister reg => .ok (cpu.registerBank.readSingleNamed reg)
  | .AddressInRegister reg =>
    match cpu.mappedRam.readByte (cpu.registerBank.readDoubleNamed reg) with
    | .ok v => .ok v
    | .error e => .error (.RamError e)
  | .OffsetAddressInRegister base offset =>
    let address := (base + cpu.registerBank.readSingleNamed offset) % 65536
    match cpu.mappedRam.readByte address with
    | .ok v => .ok v
    | .error e => .error (.RamError e)
  | .AddressInImmediate address =>
    match cpu.mappedRam.readByte address with
    | .ok v => .ok v
    | .error e => .error (.RamError e)
  | .Immediate value => .ok value

/-- Mirror of `ByteDestination`.  The file carries both in-tree revisions of
this enum: `Acc` is the dedicated accumulator variant of
`instructions/base.rs` (the one the CB-prefixed decode and the shift kernel's
zero-flag test use), and the remaining variants are those of
`instructions/base/byte.rs` (whose `write_to_acc()` is `SingleRegister(A)`). -/
inductive ByteDestination where
  | Acc
  | SingleRegister (reg : SingleRegisters)
  | AddressImmediate (address : Nat)
  | AddressInRegister (reg : DoubleRegisters)
  | OffsetAddressInRegister (base : Nat) (offset : SingleRegisters)
deriving DecidableEq

/-- `ByteDestination::write_to_acc()` of instructions/base/byte.rs. -/
def ByteDestination.writeToAcc : ByteDestination := .SingleRegister .A

/-- Mirror of `MemoryWriteAddress` (instructions/changeset/memory.rs). -/
inductive MemoryWriteAddress where
  | Immediate (address : Nat)
  | Source (src : DoubleByteSource)
  | OffsetRegister (base : Nat) (offset : SingleRegisters)
deriving DecidableEq

/-- `MemoryWriteAddress::resolve` against the CPU at commit time. -/
def MemoryWriteAddress.resolve (addr : MemoryWriteAddress) (cpu : Cpu) :
    Except ExecutionError Nat :=
  match addr with
  | .Immediate address => .ok address
  | .Source src => src.read cpu
  | .OffsetRegister base offset =>
    .ok ((base + cpu.registerBank.readSingleNamed offset) % 65536)

/-- Mirror of the concrete `Change` variants (instructions/changeset/…).
The Rust `ChangeList` aggregate is represented as `List Change` committed by
`commitList`; in the source no list ever nests another list. -/
inductive Change where
  | SingleRegisterChange (reg : SingleRegisters) (value : Nat)
  | DoubleRegisterChange (reg : DoubleRegisters) (value : Nat)
  | SpChange (value : Nat)
  | PcChange (value : Nat)
  | BitFlagsChange (zero sub halfCarry carry : Option Bool)
  | MemoryByteWriteChange (address : MemoryWriteAddress) (value : Nat)
  | MemoryDoubleByteWriteChange (address : MemoryWriteAddress) (value : Nat)
  | ChangeIme (value : Bool)
  | NoChange
deriving DecidableEq

/-- `BitFlagsChange::keep_all()`. -/
def keepAllFlags : Change := .BitFlagsChange none none none none

/-- `BitFlagsChange::zero_all()`. -/
def zeroAllFlags (zero carry : Bool) : Change :=
  .BitFlagsChange (some zero) (some false) (some false) (some carry)

/-- `ByteDestination::change_destination` (both source revisions agree arm by
arm; `Acc` produces a write to cell A). -/
def ByteDestination.changeDestination (dst : ByteDestination) (value : Nat) : Change :=
  match dst with
  | .Acc => .SingleRegisterChange .A value
  | .SingleRegister reg => .SingleRegisterChange reg value
  | .AddressImmediate address => .MemoryByteWriteChange (.Immediate address) value
  | .AddressInRegister reg =>
    .MemoryByteWriteChange (.Source (.DoubleRegister reg)) value
  | .OffsetAddressInRegister base offset =>
    .MemoryByteWriteChange (.OffsetRegister base offset) value

/-- `DoubleByteDestination::change_destination`. -/
def DoubleByteDestination.changeDestination (dst : DoubleByteDestination)
    (value : Nat) : Change :=
  match dst with
  | .DoubleRegister reg => .DoubleRegisterChange reg value
  | .StackPointer => .SpChange value
  | .AddressInImmediate address => .MemoryDoubleByteWriteChange (.Immediate address) value

/-- `BitFlagsChange::commit_change`: write each `Some` field through
`write_bit_flag`, in the fixed order Zero, Subtraction, HalfCarry, Carry. -/
def commitFlag (bank : RegisterBank) (flag : BitFlags) : Option Bool → RegisterBank
  | none => bank
  | some value => bank.writeBitFlag flag value

/-- `Change::commit_change` for one concrete change. -/
def commitChange (change : Change) (cpu : Cpu) : Cpu × Except ExecutionError Unit :=
  match change with
  | .SingleRegisterChange reg value =>
    ({ cpu with registerBank := cpu.registerBank.writeSingleNamed reg value }, .ok ())
  | .DoubleRegisterChange reg value =>
    ({ cpu with registerBank := cpu.registerBank.writeDoubleNamed reg value }, .ok ())
  | .SpChange value => ({ cpu with sp := value }, .ok ())
  | .PcChange value => ({ cpu with pc := value }, .ok ())
  | .BitFlagsChange zero sub halfCarry carry =>
    let bank := commitFlag cpu.registerBank .Zero zero
    let bank := commitFlag bank .Subtraction sub
    let bank := commitFlag bank .HalfCarry halfCarry
    let bank := commitFlag bank .Carry carry
    ({ cpu with registerBank := bank }, .ok ())
  | .MemoryByteWriteChange address value =>
    match address.resolve cpu with
    | .error e => (cpu, .error e)
    | .ok a =>
      match cpu.mappedRam.writeByte a value with
      | .ok mem => ({ cpu with mappedRam := mem }, .ok ())
      | .error e => (cpu, .error (.RamError e))
  | .MemoryDoubleByteWriteChange address value =>
    match address.resolve cpu with
    | .error e => (cpu, .error e)
    | .ok a =>
      match cpu.mappedRam.writeDoubleByte a value with
      | .ok mem => ({ cpu with mappedRam := mem }, .ok ())
      | .error e => (cpu, .error (.RamError e))
  | .ChangeIme value => ({ cpu with ime := value }, .ok ())
  | .NoChange => (cpu, .ok ())

/-- `ChangeList::commit_change`: apply in order, abort on the first failure
(earlier effects stay applied). -/
def commitList (changes : List Change) (cpu : Cpu) : Cpu × Except ExecutionError Unit :=
  match changes with
  | [] => (cpu, .ok ())
  | c :: rest =>
    match commitChange c cpu with
    | (cpu1, .ok ()) => commitList rest cpu1
    | (cpu1, .error e) => (cpu1, .error e)

/-- Mirror of `ShiftDirection` (instructions/shifting/operation.rs). -/
inductive ShiftDirection where
  | Left
  | Right
deriving DecidableEq

/-- `ShiftDirection::shift_in_mask`. -/
def ShiftDirection.shiftInMask : ShiftDirection → Nat
  | .Left => 0x01
  | .Right => 0x80

/-- Mirror of `ShiftType` (instructions/shifting/operation.rs). -/
inductive ShiftType where
  | Rotate
  | RotateWithCarry
  | LogicalShift
  | ArithmeticShift
deriving DecidableEq

/-- `ByteShiftOperation::shift_result`: one-bit `u8` shift plus the ejected
bit (`value << 1` wraps on `u8`). -/
def shiftResult (direction : ShiftDirection) (value : Nat) : Nat × Bool :=
  match direction with
  | .Left => ((value * 2) % 256, Nat.testBit value 7)
  | .Right => (value / 2, Nat.testBit value 0)

/-- `ByteShiftOperation::shift_in`: what feeds the vacated bit position. -/
def shiftIn (ty : ShiftType) (shiftedOut oldCarry : Bool) : Option Bool :=
  match ty with
  | .Rotate => some shiftedOut
  | .RotateWithCarry => some oldCarry
  | _ => none

/-- `ByteShiftOperation::preserve_sign_bit`. -/
def preserveSignBit (ty : ShiftType) (direction : ShiftDirection) : Bool :=
  match ty, direction with
  | .ArithmeticShift, .Right => true
  | _, _ => false

/-- `ByteShiftOperation::zero_flag_for_result`: the accumulator destination
reports `false`, every other destination tests the result. -/
def zeroFlagForResult (destination : ByteDestination) (result : Nat) : Bool :=
  match destination with
  | .Acc => false
  | _ => decide (result = 0)

/-- `ByteShiftOperation::compute_changes` (operation.rs lines 197–234).  The
`old_sign` test is the source's literal `value & 80 != 0` — the decimal
constant 80 (0x50), kept verbatim. -/
def byteShiftComputeChanges (direction : ShiftDirection) (ty : ShiftType)
    (value : Nat) (oldCarry : Bool) (dst : ByteDestination) : List Change :=
  let oldSign := value &&& 80 != 0
  let (result0, shiftedOut) := shiftResult direction value
  let shiftInBit := (shiftIn ty shiftedOut oldCarry).getD false
  let result1 := if shiftInBit then result0 ||| direction.shiftInMask else result0
  let result :=
    if preserveSignBit ty direction then
      (result1 &&& 0x7F) ||| ((if oldSign then 1 else 0) <<< 7)
    else result1
  let newCarry := shiftedOut
  let newZero := zeroFlagForResult dst result
  [dst.changeDestination result, zeroAllFlags newZero newCarry]

/-- `ByteOperation for ByteShiftOperation::execute`: read the source and the
old carry, then compute the change list. -/
def byteShiftExecute (direction : ShiftDirection) (ty : ShiftType)
    (src : ByteSource) (dst : ByteDestination) (cpu : Cpu) :
    Except ExecutionError (List Change) :=
  match src.read cpu with
  | .error e => .error e
  | .ok value =>
    let oldCarry := cpu.registerBank.readBitFlag .Carry
    .ok (byteShiftComputeChanges direction ty value oldCarry dst)

/-- The `execute = commit(compute_change(cpu))` path of a shift instruction. -/
def runByteShift (direction : ShiftDirection) (ty : ShiftType)
    (src : ByteSource) (dst : ByteDestination) (cpu : Cpu) :
    Cpu × Except ExecutionError Unit :=
  match byteShiftExecute direction ty src dst cpu with
  | .error e => (cpu, .error e)
  | .ok changes => commitList changes cpu

/-- `PushInstruction::compute_change` (load/double_byte_load.rs lines 47–62):
SP−2 first, then the 16-bit memory write at that address. -/
def pushComputeChange (source : DoubleByteSource) (cpu : Cpu) :
    Except ExecutionError (List Change) :=
  let address := (cpu.sp + 65536 - 2) % 65536
  match source.read cpu with
  | .error e => .error e
  | .ok value =>
    .ok [.SpChange address, .MemoryDoubleByteWriteChange (.Immediate address) value]

/-- `PopInstruction::compute_change` (load/double_byte_load.rs lines 75–88):
read the 16-bit value at SP, then SP+2. -/
def popComputeChange (destination : DoubleByteDestination) (cpu : Cpu) :
    Except ExecutionError (List Change) :=
  let address := cpu.sp
  match cpu.mappedRam.readDoubleByte address with
  | .error e => .error (.RamError e)
  | .ok value =>
    .ok [destination.changeDestination value, .SpChange ((address + 2) % 65536)]

/-- `execute` of a PUSH: compute then commit. -/
def runPush (source : DoubleByteSource) (cpu : Cpu) : Cpu × Except ExecutionError Unit :=
  match pushComputeChange source cpu with
  | .error e => (cpu, .error e)
  | .ok changes => commitList changes cpu

/-- `execute` of a POP: compute then commit. -/
def runPop (destination : DoubleByteDestination) (cpu : Cpu) :
    Cpu × Except ExecutionError Unit :=
  match popComputeChange destination cpu with
  | .error e => (cpu, .error e)
  | .ok changes => commitList changes cpu

/-- `BinaryDoubleByteAddOperation::compute_changes`
(instructions/double_arithmetic.rs lines 16–42).  Both high-byte ALU operands
come from `left_value` in the source (`let high_right_value =
left_value.to_le_bytes()[1]`); kept verbatim. -/
def binaryDoubleByteAddComputeChanges (left right : DoubleByteSource)
    (dst : DoubleByteDestination) (cpu : Cpu) : Except ExecutionError (List Change) :=
  match left.read cpu with
  | .error e => .error e
  | .ok leftValue =>
    match right.read cpu with
    | .error e => .error e
    | .ok rightValue =>
      let highLeftValue := leftValue / 256 % 256
      let highRightValue := leftValue / 256 % 256
      let result := (leftValue + rightValue) % 65536
      let highAluResult := addU8 highLeftValue highRightValue
      .ok [dst.changeDestination result,
        .BitFlagsChange none (some false) (some highAluResult.halfCarry)
          (some highAluResult.carry)]

/-- Mirror of `IndexUpdateType` (instructions/shared.rs), also standing for
the identical two-variant `IncOrDecDoubleType`. -/
inductive IndexUpdateType where
  | Increment
  | Decrement
deriving DecidableEq

/-- Mirror of `BinaryArithmeticOperationType` (arithmetic/add_or_sub.rs). -/
inductive ArithOpType where
  | Add
  | Sub
deriving DecidableEq

/-- Mirror of `BinaryLogicalOperationType` (instructions/logical.rs). -/
inductive LogicalOpType where
  | And
  | Xor
  | Or
deriving DecidableEq

/-- Mirror of `SingleBitOperand` (instructions/single_bit.rs). -/
inductive SingleBitOperand where
  | SingleRegister (reg : SingleRegisters)
  | MemoryAddress
deriving DecidableEq

/-- Mirror of `SingleBitOperation` (instructions/single_bit.rs). -/
inductive SingleBitOperation where
  | Test
  | Write (bit : Bool)
deriving DecidableEq

/-- Mirror of `JumpInstructionDestination` (instructions/jump.rs). -/
inductive JumpInstructionDestination where
  | FromSource (src : DoubleByteSource)
  | RelativeToPc (delta : Int)
deriving DecidableEq

/-- The decoded instruction object: one constructor per instruction family
the decoder (decoder.rs, decoder/prefixed.rs) constructs, each carrying the
operand endpoints and kernel configuration the source stores in the
corresponding struct. -/
inductive Instruction where
  | Nop
  | Stop
  | Halt
  | DoubleByteLoad (src : DoubleByteSource) (dst : DoubleByteDestination)
  | Jump (dst : JumpInstructionDestination) (condition : BranchCondition)
  | BinaryDoubleAdd (left right : DoubleByteSource) (dst : DoubleByteDestination)
  | ByteLoad (src : ByteSource) (dst : ByteDestination)
      (update : Option (DoubleRegisters × IndexUpdateType))
  | IncOrDecDouble (src : DoubleByteSource) (dst : DoubleByteDestination)
      (ty : IndexUpdateType)
  | IncOrDec (src : ByteSource) (dst : ByteDestination) (ty : IndexUpdateType)
  | ByteShift (src : ByteSource) (dst : ByteDestination)
      (direction : ShiftDirection) (ty : ShiftType)
  | ByteSwap (src : ByteSource) (dst : ByteDestination)
  | DecimalAdjust
  | Negate
  | ChangeCarryFlag (value : Bool)
  | BinaryArithmetic (left right : ByteSource) (dst : ByteDestination)
      (ty : ArithOpType) (useCarry : Bool)
  | BinaryLogical (left right : ByteSource) (dst : ByteDestination)
      (ty : LogicalOpType)
  | Compare (left right : ByteSource)
  | Ret (condition : BranchCondition) (enableInterrupts : Bool)
  | AddSignedByteToDouble (src : DoubleByteSource) (dst : DoubleByteDestination)
      (delta : Int)
  | SetIme (value : Bool)
  | Pop (dst : DoubleByteDestination)
  | Push (src : DoubleByteSource)
  | Call (condition : BranchCondition) (address : Nat)
  | SingleBit (operand : SingleBitOperand) (op : SingleBitOperation) (bitShift : Nat)
deriving DecidableEq

/-- `decode_xyz` over `byte_to_bits` (bits.rs): `x` is bits 6–7, `y` bits 3–5,
`z` bits 0–2, each listed least-significant first as in the Rust arrays. -/
def decodeXyz (opcode : Nat) :
    (Bool × Bool) × (Bool × Bool × Bool) × (Bool × Bool × Bool) :=
  ((opcode.testBit 6, opcode.testBit 7),
   (opcode.testBit 3, opcode.testBit 4, opcode.testBit 5),
   (opcode.testBit 0, opcode.testBit 1, opcode.testBit 2))

/-- `bits_to_byte` (bits.rs) on a three-bit array `[b0, b1, b2]`: folds
most-significant-first, so `b0` (the opcode's bit 3) lands in the 4s place. -/
def bitsToByte3 (b0 b1 b2 : Bool) : Nat :=
  let acc := 0
  let acc := acc * 2 + (if b0 then 1 else 0)
  let acc := acc * 2 + (if b1 then 1 else 0)
  acc * 2 + (if b2 then 1 else 0)

/-- Mirror of `DecodedInstructionOperand` (decoder.rs). -/
inductive DecodedInstructionOperand where
  | SingleRegister (reg : SingleRegisters)
  | HlMemoryAddress
deriving DecidableEq

/-- `DecodedInstructionOperand::from_opcode_part`: three opcode bits
(least-significant first) to the operand slot 0..=7. -/
def DecodedInstructionOperand.fromOpcodePart :
    Bool × Bool × Bool → DecodedInstructionOperand
  | (false, false, false) => .SingleRegister .B
  | (true, false, false) => .SingleRegister .C
  | (false, true, false) => .SingleRegister .D
  | (true, true, false) => .SingleRegister .E
  | (false, false, true) => .SingleRegister .H
  | (true, false, true) => .SingleRegister .L
  | (false, true, true) => .HlMemoryAddress
  | (true, true, true) => .SingleRegister .A

/-- `From<DecodedInstructionOperand> for ByteSource`. -/
def DecodedInstructionOperand.toByteSource : DecodedInstructionOperand → ByteSource
  | .SingleRegister reg => .SingleRegister reg
  | .HlMemoryAddress => .AddressInRegister .HL

/-- `From<DecodedInstructionOperand> for ByteDestination`. -/
def DecodedInstructionOperand.toByteDestination :
    DecodedInstructionOperand → ByteDestination
  | .SingleRegister reg => .SingleRegister reg
  | .HlMemoryAddress => .AddressInRegister .HL

/-- `From<DecodedInstructionOperand> for SingleBitOperand`
(decoder/prefixed.rs). -/
def DecodedInstructionOperand.toSingleBitOperand :
    DecodedInstructionOperand → SingleBitOperand
  | .SingleRegister reg => .SingleRegister reg
  | .HlMemoryAddress => .MemoryAddress

/-- Mirror of `DecodedInstructionDoubleOperand` (decoder.rs). -/
inductive DecodedInstructionDoubleOperand where
  | DoubleRegister (reg : DoubleRegisters)
  | Sp
  | Af
deriving DecidableEq

/-- `from_opcode_maybe_double` on the two `p` bits `[p0, p1]`. -/
def fromOpcodeMaybeDouble : Bool × Bool → Option DoubleRegisters
  | (false, false) => some .BC
  | (true, false) => some .DE
  | (false, true) => some .HL
  | (true, true) => none

/-- `from_opcode_part_double_or_sp`. -/
def doubleOrSp (p : Bool × Bool) : DecodedInstructionDoubleOperand :=
  match fromOpcodeMaybeDouble p with
  | some reg => .DoubleRegister reg
  | none => .Sp

/-- `from_opcode_part_double_or_af`. -/
def doubleOrAf (p : Bool × Bool) : DecodedInstructionDoubleOperand :=
  match fromOpcodeMaybeDouble p with
  | some reg => .DoubleRegister reg
  | none => .Af

/-- `From<DecodedInstructionDoubleOperand> for DoubleByteSource`. -/
def DecodedInstructionDoubleOperand.toSource :
    DecodedInstructionDoubleOperand → DoubleByteSource
  | .DoubleRegister reg => .DoubleRegister reg
  | .Af => .DoubleRegister .AF
  | .Sp => .StackPointer

/-- `From<DecodedInstructionDoubleOperand> for DoubleByteDestination`. -/
def DecodedInstructionDoubleOperand.toDestination :
    DecodedInstructionDoubleOperand → DoubleByteDestination
  | .DoubleRegister reg => .DoubleRegister reg
  | .Af => .DoubleRegister .AF
  | .Sp => .StackPointer

/-- `decode_pq`: `q` is the `y` array's first bit (opcode bit 3), `p` the
remaining two (opcode bits 4 and 5). -/
def decodePq (y : Bool × Bool × Bool) : (Bool × Bool) × Bool :=
  ((y.2.1, y.2.2), y.1)

/-- `decode_conditional` (decoder.rs lines 689–696): the tested flag comes
from `op_part[0]` (opcode bit 3) and the expected value from `op_part[1]`
(opcode bit 4); kept verbatim. -/
def decodeConditional (opPart : Bool × Bool) : BitFlags × Bool :=
  let value := opPart.2
  let flag := if opPart.1 then BitFlags.Carry else BitFlags.Zero
  (flag, value)

/-- `decode_prefixed_shifting` (decoder/prefixed.rs lines 9–32): operand from
`z`, kind from `y`; the destination is always `ByteDestination::Acc`.  The
(logical-shift, left) combination encodes swap-nibbles. -/
def decodePrefixedShifting (y z : Bool × Bool × Bool) : Instruction :=
  let source := (DecodedInstructionOperand.fromOpcodePart z).toByteSource
  let shiftDirection := if y.1 then ShiftDirection.Right else ShiftDirection.Left
  let shiftType : ShiftType :=
    match y with
    | (_, false, false) => .Rotate
    | (_, true, false) => .RotateWithCarry
    | (_, false, true) => .ArithmeticShift
    | (_, true, true) => .LogicalShift
  match shiftType, shiftDirection with
  | .LogicalShift, .Left => .ByteSwap source .Acc
  | _, _ => .ByteShift source .Acc shiftDirection shiftType

/-- `decode_prefixed_single_bit` (decoder/prefixed.rs): bit index from
`bits_to_byte(&y)`, operand from `z`; the instruction masks the index `& 7`. -/
def decodePrefixedSingleBit (op : SingleBitOperation) (y z : Bool × Bool × Bool) :
    Instruction :=
  let bitshift := bitsToByte3 y.1 y.2.1 y.2.2
  let operand := (DecodedInstructionOperand.fromOpcodePart z).toSingleBitOperand
  .SingleBit operand op (bitshift &&& 0x07)

/-- `decode_byte_instruction` (decoder.rs): the ALU-A,r family selected by
the three `y` bits. -/
def decodeByteInstruction (opPart : Bool × Bool × Bool) (right : ByteSource) :
    Instruction :=
  let dst := ByteDestination.writeToAcc
  match opPart with
  | (op0, op1, false) =>
    .BinaryArithmetic ByteSource.readFromAcc right dst
      (if op0 then .Sub else .Add) op1
  | (op0, op1, true) =>
    match op0, op1 with
    | false, false => .BinaryLogical ByteSource.readFromAcc right dst .And
    | true, false => .BinaryLogical ByteSource.readFromAcc right dst .Xor
    | false, true => .BinaryLogical ByteSource.readFromAcc right dst .Or
    | true, true => .Compare ByteSource.readFromAcc right

/-- Decode-time success: the state is untouched by a pure arm. -/
def pureD (i : Instruction) (cpu : Cpu) : Cpu × Except ExecutionError Instruction :=
  (cpu, .ok i)

/-- Decode-time failure (`InvalidOpcode` arms). -/
def errD (e : ExecutionError) (cpu : Cpu) : Cpu × Except ExecutionError Instruction :=
  (cpu, .error e)

/-- Sequencing of an immediate fetch (`load_next_*(cpu)?`) with the rest of a
decode arm. -/
def dbind (step : Cpu → Cpu × Except ExecutionError α)
    (k : α → Cpu → Cpu × Except ExecutionError Instruction) (cpu : Cpu) :
    Cpu × Except ExecutionError Instruction :=
  match step cpu with
  | (cpu1, .error e) => (cpu1, .error e)
  | (cpu1, .ok v) => k v cpu1

/-- `load_next_u8`. -/
def loadNextU8 (cpu : Cpu) : Cpu × Except ExecutionError Nat :=
  cpu.nextByte

/-- `load_next_u16` (decoder.rs lines 541–546): reads `low` then `high` from
the PC stream and combines them with `u16::from_be_bytes([low, high])`, i.e.
the first byte lands in the high-order position; kept verbatim. -/
def loadNextU16 (cpu : Cpu) : Cpu × Except ExecutionError Nat :=
  match cpu.nextByte with
  | (cpu1, .error e) => (cpu1, .error e)
  | (cpu1, .ok low) =>
    match cpu1.nextByte with
    | (cpu2, .error e) => (cpu2, .error e)
    | (cpu2, .ok high) => (cpu2, .ok (low * 256 + high))

/-- `load_next_i8`: the byte reinterpreted as `i8`. -/
def loadNextI8 (cpu : Cpu) : Cpu × Except ExecutionError Int :=
  match cpu.nextByte with
  | (cpu1, .error e) => (cpu1, .error e)
  | (cpu1, .ok delta) =>
    (cpu1, .ok (if delta % 256 < 128 then (delta % 256 : Int) else (delta % 256 : Int) - 256))

/-- `IO_REGISTERS_MAPPING_START`. -/
def ioRegistersMappingStart : Nat := 0xFF00

/-- The body of `decode_opcode` (decoder.rs) after the `decode_xyz` split:
`cb` is true when the 0xCB-prefixed table is selected, and the eight bits are
the components of `x`, `y`, `z` (least significant first).  Every arm mirrors
the source's match tree in order. -/
def decodeOpcodeBits (cb : Bool) (opcode : Nat) (x0 x1 y0 y1 y2 z0 z1 z2 : Bool) :
    Cpu → Cpu × Except ExecutionError Instruction :=
  match cb with
    | true =>
      match x0, x1 with
      | false, false => pureD (decodePrefixedShifting (y0, y1, y2) (z0, z1, z2))
      | true, false => pureD (decodePrefixedSingleBit .Test (y0, y1, y2) (z0, z1, z2))
      | false, true =>
        pureD (decodePrefixedSingleBit (.Write false) (y0, y1, y2) (z0, z1, z2))
      | true, true =>
        pureD (decodePrefixedSingleBit (.Write true) (y0, y1, y2) (z0, z1, z2))
    | false =>
      match x0, x1 with
      | false, false =>
        match z0, z1, z2 with
        | false, false, false =>
          match y0, y1, y2 with
          | false, false, false => pureD .Nop
          | true, false, false =>
            dbind loadNextU16 (fun address =>
              pureD (.DoubleByteLoad (.Immediate address) .StackPointer))
          | false, true, false => pureD .Stop
          | true, true, false =>
            dbind loadNextI8 (fun delta =>
              pureD (.Jump (.RelativeToPc delta) .Unconditional))
          | b0, b1, true =>
            let flag := if b1 then BitFlags.Carry else BitFlags.Zero
            dbind loadNextI8 (fun delta =>
              pureD (.Jump (.RelativeToPc delta) (.TestFlag flag b0)))
        | true, false, false =>
          let q := y0
          let p := (y1, y2)
          let dro := doubleOrSp p
          match q with
          | false =>
            dbind loadNextU16 (fun imm =>
              pureD (.DoubleByteLoad (.Immediate imm) dro.toDestination))
          | true =>
            pureD (.BinaryDoubleAdd (.DoubleRegister .HL) dro.toSource
              (.DoubleRegister .HL))
        | false, true, false =>
          let q := y0
          match y2 with
          | false =>
            let registerAddress := if y1 then DoubleRegisters.DE else DoubleRegisters.BC
            let pair :=
              match q with
              | false =>
                ((ByteDestination.AddressInRegister registerAddress),
                  ByteSource.readFromAcc)
              | true =>
                (ByteDestination.writeToAcc, ByteSource.AddressInRegister registerAddress)
            pureD (.ByteLoad pair.2 pair.1 none)
          | true =>
            let updateType := if y1 then IndexUpdateType.Decrement
              else IndexUpdateType.Increment
            let pair :=
              match q with
              | false =>
                ((ByteDestination.AddressInRegister .HL), ByteSource.readFromAcc)
              | true =>
                (ByteDestination.writeToAcc, ByteSource.AddressInRegister .HL)
            pureD (.ByteLoad pair.2 pair.1 (some (.HL, updateType)))
        | true, true, false =>
          let pq := decodePq (y0, y1, y2)
          let dro := doubleOrSp pq.1
          let ty := if pq.2 then IndexUpdateType.Decrement else IndexUpdateType.Increment
          pureD (.IncOrDecDouble dro.toSource dro.toDestination ty)
        | b0, false, true =>
          let ty := if b0 then IndexUpdateType.Decrement else IndexUpdateType.Increment
          let operand := DecodedInstructionOperand.fromOpcodePart (y0, y1, y2)
          pureD (.IncOrDec operand.toByteSource operand.toByteDestination ty)
        | false, true, true =>
          let operand := DecodedInstructionOperand.fromOpcodePart (y0, y1, y2)
          dbind loadNextU8 (fun imm =>
            pureD (.ByteLoad (.Immediate imm) operand.toByteDestination none))
        | true, true, true =>
          match y0, y1, y2 with
          | b0, b1, false =>
            let direction := if b0 then ShiftDirection.Right else ShiftDirection.Left
            let ty := if b1 then ShiftType.RotateWithCarry else ShiftType.Rotate
            pureD (.ByteShift ByteSource.readFromAcc ByteDestination.writeToAcc
              direction ty)
          | false, false, true => pureD .DecimalAdjust
          | true, false, true => pureD .Negate
          | b0, true, true => pureD (.ChangeCarryFlag b0)
      | true, false =>
        if (y0, y1, y2) = (false, true, true) ∧ (z0, z1, z2) = (false, true, true) then
          pureD .Halt
        else
          let srcOperand := DecodedInstructionOperand.fromOpcodePart (z0, z1, z2)
          let dstOperand := DecodedInstructionOperand.fromOpcodePart (y0, y1, y2)
          pureD (.ByteLoad srcOperand.toByteSource dstOperand.toByteDestination none)
      | false, true =>
        let operand := DecodedInstructionOperand.fromOpcodePart (z0, z1, z2)
        pureD (decodeByteInstruction (y0, y1, y2) operand.toByteSource)
      | true, true =>
        match z0, z1, z2 with
        | false, false, false =>
          match y0, y1, y2 with
          | b0, b1, false =>
            let fv := decodeConditional (b0, b1)
            pureD (.Ret (.TestFlag fv.1 fv.2) false)
          | false, false, true =>
            dbind loadNextU8 (fun offset =>
              pureD (.ByteLoad ByteSource.readFromAcc
                (.AddressImmediate ((ioRegistersMappingStart + offset) % 65536)) none))
          | true, false, true =>
            dbind loadNextI8 (fun delta =>
              pureD (.AddSignedByteToDouble .StackPointer .StackPointer delta))
          | false, true, true =>
            dbind loadNextU8 (fun offset =>
              pureD (.ByteLoad
                (.AddressInImmediate ((ioRegistersMappingStart + offset) % 65536))
                ByteDestination.writeToAcc none))
          | true, true, true =>
            dbind loadNextI8 (fun offset =>
              pureD (.AddSignedByteToDouble .StackPointer (.DoubleRegister .HL) offset))
        | true, false, false =>
          let pq := decodePq (y0, y1, y2)
          match pq.2 with
          | false => pureD (.Pop (doubleOrAf pq.1).toDestination)
          | true =>
            match pq.1 with
            | (p0, false) => pureD (.Ret .Unconditional p0)
            | (false, true) =>
              pureD (.Jump (.FromSource (.DoubleRegister .HL)) .Unconditional)
            | (true, true) =>
              pureD (.DoubleByteLoad (.DoubleRegister .HL) .StackPointer)
        | false, true, false =>
          match y0, y1, y2 with
          | b0, b1, false =>
            let fv := decodeConditional (b0, b1)
            dbind loadNextU16 (fun address =>
              pureD (.Jump (.FromSource (.Immediate address))
                (.TestFlag fv.1 fv.2)))
          | false, b1, true =>
            let base := ioRegistersMappingStart
            let offset := SingleRegisters.C
            let pair :=
              match b1 with
              | false =>
                (ByteSource.readFromAcc,
                  ByteDestination.OffsetAddressInRegister base offset)
              | true =>
                (ByteSource.OffsetAddressInRegister base offset,
                  ByteDestination.writeToAcc)
            pureD (.ByteLoad pair.1 pair.2 none)
          | true, b1, true =>
            dbind loadNextU16 (fun address =>
              let pair :=
                match b1 with
                | false =>
                  (ByteSource.readFromAcc, ByteDestination.AddressImmediate address)
                | true =>
                  (ByteSource.AddressInImmediate address, ByteDestination.writeToAcc)
              pureD (.ByteLoad pair.1 pair.2 none))
        | true, true, false =>
          match y0, y1, y2 with
          | false, false, false =>
            dbind loadNextU16 (fun address =>
              pureD (.Jump (.FromSource (.Immediate address)) .Unconditional))
          | b0, true, true => pureD (.SetIme b0)
          | _, _, _ => errD (.InvalidOpcode opcode)
        | false, false, true =>
          match y0, y1, y2 with
          | b0, b1, false =>
            dbind loadNextU16 (fun address =>
              let fv := decodeConditional (b0, b1)
              pureD (.Call (.TestFlag fv.1 fv.2) address))
          | _, _, _ => errD (.InvalidOpcode opcode)
        | true, false, true =>
          let pq := decodePq (y0, y1, y2)
          match pq.2 with
          | false => pureD (.Push (doubleOrAf pq.1).toSource)
          | true =>
            match pq.1 with
            | (false, false) =>
              dbind loadNextU16 (fun address =>
                pureD (.Call .Unconditional address))
            | _ => errD (.InvalidOpcode opcode)
        | false, true, true =>
          dbind loadNextU8 (fun imm =>
            pureD (decodeByteInstruction (y0, y1, y2) (.Immediate imm)))
        | true, true, true =>
          pureD (.Call .Unconditional (8 * bitsToByte3 y0 y1 y2))

/-- `decode_opcode` (decoder.rs): split the opcode with `decode_xyz`, then
dispatch on the fields. -/
def decodeOpcode (cb : Bool) (opcode : Nat) :
    Cpu → Cpu × Except ExecutionError Instruction :=
  match decodeXyz opcode with
  | ((x0, x1), (y0, y1, y2), (z0, z1, z2)) =>
    decodeOpcodeBits cb opcode x0 x1 y0 y1 y2 z0 z1 z2

/-- `fetch_and_decode` (decoder.rs lines 46–59): read one byte; on 0xCB read
the true opcode from the prefixed table; decode. -/
def fetchAndDecode (cpu : Cpu) : Cpu × Except ExecutionError Instruction :=
  match cpu.nextByte with
  | (cpu1, .error e) => (cpu1, .error e)
  | (cpu1, .ok firstByte) =>
    if firstByte = 0xCB then
      match cpu1.nextByte with
      | (cpu2, .error e) => (cpu2, .error e)
      | (cpu2, .ok opcode) => decodeOpcode true opcode cpu2
    else
      decodeOpcode false firstByte cpu1

/-- `DividerRegister`'s own `Ram::write_byte` (counters/divider.rs): any
write at sub-address 0 resets the counter to 0 regardless of the value.
(The I/O fabric's `get_ram` never routes to it — see `IoRegs.regionWriteByte`.) -/
def dividerWriteByte (address : Nat) (_value : Nat) : Except RamError Nat :=
  if address = 0 then .ok 0 else .error (.InvalidAddress address)

/-- Success test on `Except` results. -/
def isOkRes : Except ε α → Bool
  | .ok _ => true
  | .error _ => false

/-- Error projection on `Except` results. -/
def errOf : Except ε α → Option ε
  | .ok _ => none
  | .error e => some e

/-- An address inside one of the plain writable RAM chips of the memory map
(VRAM, work RAM, OAM). -/
def writableRamAddress (a : Nat) : Prop :=
  (0x8000 ≤ a ∧ a ≤ 0x9FFF) ∨ (0xC000 ≤ a ∧ a ≤ 0xDFFF) ∨ (0xFE00 ≤ a ∧ a ≤ 0xFE9F)

instance (a : Nat) : Decidable (writableRamAddress a) := by
  unfold writableRamAddress
  infer_instance

/-- Everything of the CPU state except the program counter agrees between
`c` and `c'`. -/
def coreUnchanged (c c' : Cpu) : Prop :=
  c'.registerBank = c.registerBank ∧ c'.sp = c.sp ∧
  c'.ime = c.ime ∧ c'.mappedRam = c.mappedRam

/-- The I/O register file used by the concrete evaluations: all chips zeroed
except the divider counter, which holds 0x1234. -/
def ioState0 : IoRegs :=
  { joypadInput := 0
    serialTransfer := fun _ => 0
    dividerRegister := 0x1234
    timer := { enabled := false, selectedClockSpeed := 0, counter := 0, modulo := 0, ticks := 0 }
    wave := fun _ => 0
    lcdControl := 0
    lcdStatus := 0
    screenScroll := ⟨0, 0⟩
    screenPosition := ⟨0, 0⟩
    bgp := 0 }

/-- Memory with the given byte list placed at the start of work RAM and all
other chips zeroed. -/
def memWithProgram (prog : List Nat) : MappedMemory :=
  { bootRom := fun _ => 0
    workingRam := fun a => prog.getD a 0
    videoRam := fun _ => 0
    io := ioState0
    oam := fun _ => 0 }

/-- A CPU about to execute the given bytes: PC at the start of work RAM
(0xC000), everything else zeroed. -/
def cpuWithProgram (prog : List Nat) : Cpu :=
  { registerBank := RegisterBank.new
    mappedRam := memWithProgram prog
    pc := 0xC000
    sp := 0
    ime := true }

/-- Concrete state for the CB RLC B scenario: A = 0x55, B = 0x00, program
bytes CB 00. -/
def cpuRlcB : Cpu :=
  { cpuWithProgram [0xCB, 0x00] with
    registerBank := RegisterBank.new.writeSingleNamed .A 0x55 }

/-- The CPU after fetching and decoding the CB 00 instruction of `cpuRlcB`. -/
def cpuRlcBFetched : Cpu := (fetchAndDecode cpuRlcB).1

/-- The CPU after then executing the decoded shift (compute + commit). -/
def cpuRlcBAfter : Cpu :=
  (runByteShift .Left .Rotate (.SingleRegister .B) .Acc cpuRlcBFetched).1

/-- Concrete state for the 16-bit-add scenario: HL = 0x1200, SP = 0xF200. -/
def cpuDoubleAdd : Cpu :=
  { cpuWithProgram [] with
    registerBank := RegisterBank.new.writeDoubleNamed .HL 0x1200
    sp := 0xF200 }

/-- Concrete state whose PC points at unmapped memory (0x0100). -/
def cpuAtUnmapped : Cpu := { cpuWithProgram [] with pc := 0x0100 }

/-- Concrete state for the push/pop witness: SP = 0xC010 inside work RAM. -/
def cpuPushPop : Cpu := { cpuWithProgram [] with sp := 0xC010 }

theorem coreUnchanged_refl (c : Cpu) : coreUnchanged c c := ⟨rfl, rfl, rfl, rfl⟩

theorem coreUnchanged_trans {a b c : Cpu} (h1 : coreUnchanged a b)
    (h2 : coreUnchanged b c) : coreUnchanged a c :=
  ⟨h2.1.trans h1.1, h2.2.1.trans h1.2.1, h2.2.2.1.trans h1.2.2.1,
    h2.2.2.2.trans h1.2.2.2⟩

theorem nextByte_core (cpu : Cpu) : coreUnchanged cpu cpu.nextByte.1 := by
  cases h : cpu.mappedRam.readByte cpu.pc <;>
    simp [Cpu.nextByte, Cpu.nextPc, h, coreUnchanged]

theorem loadNextU8_core (cpu : Cpu) : coreUnchanged cpu (loadNextU8 cpu).1 :=
  nextByte_core cpu

theorem loadNextI8_core (cpu : Cpu) : coreUnchanged cpu (loadNextI8 cpu).1 := by
  rcases h : cpu.nextByte with ⟨c1, r⟩
  have hc := nextByte_core cpu
  rw [h] at hc
  unfold loadNextI8
  rw [h]
  cases r
  · exact hc
  · exact hc

theorem loadNextU16_core (cpu : Cpu) : coreUnchanged cpu (loadNextU16 cpu).1 := by
  unfold loadNextU16
  split
  next c1 e heq =>
    have h0 := nextByte_core cpu
    rw [heq] at h0
    exact h0
  next c1 low heq =>
    have h0 := nextByte_core cpu
    rw [heq] at h0
    split
    next c2 e heq2 =>
      have h1 := nextByte_core c1
      rw [heq2] at h1
      exact coreUnchanged_trans h0 h1
    next c2 high heq2 =>
      have h1 := nextByte_core c1
      rw [heq2] at h1
      exact coreUnchanged_trans h0 h1

theorem dbind_core (step : Cpu → Cpu × Except ExecutionError α)
    (k : α → Cpu → Cpu × Except ExecutionError Instruction)
    (hstep : ∀ c, coreUnchanged c (step c).1)
    (hk : ∀ v c, coreUnchanged c (k v c).1) (cpu : Cpu) :
    coreUnchanged cpu (dbind step k cpu).1 := by
  rcases h : step cpu with ⟨c1, r⟩
  have hc1 := hstep cpu
  rw [h] at hc1
  unfold dbind
  rw [h]
  cases r
  · exact hc1
  · exact coreUnchanged_trans hc1 (hk _ c1)

theorem decodeOpcodeBits_core (cb : Bool) (op : Nat)
    (x0 x1 y0 y1 y2 z0 z1 z2 : Bool) (cpu : Cpu) :
    coreUnchanged cpu (decodeOpcodeBits cb op x0 x1 y0 y1 y2 z0 z1 z2 cpu).1 := by
  cases cb <;> cases x0 <;> cases x1 <;>
    cases y0 <;> cases y1 <;> cases y2 <;>
    cases z0 <;> cases z1 <;> cases z2 <;>
    first
    | exact coreUnchanged_refl cpu
    | exact dbind_core _ _ loadNextU16_core (fun _ c => coreUnchanged_refl c) cpu
    | exact dbind_core _ _ loadNextU8_core (fun _ c => coreUnchanged_refl c) cpu
    | exact dbind_core _ _ loadNextI8_core (fun _ c => coreUnchanged_refl c) cpu

theorem decodeOpcode_core (cb : Bool) (op : Nat) (cpu : Cpu) :
    coreUnchanged cpu (decodeOpcode cb op cpu).1 := by
  unfold decodeOpcode decodeXyz
  exact decodeOpcodeBits_core cb op _ _ _ _ _ _ _ _ cpu

theorem fetchAndDecode_core (cpu : Cpu) : coreUnchanged cpu (fetchAndDecode cpu).1 := by
  unfold fetchAndDecode
  split
  next c1 e heq =>
    have h0 := nextByte_core cpu
    rw [heq] at h0
    exact h0
  next c1 b heq =>
    have h0 := nextByte_core cpu
    rw [heq] at h0
    split
    · split
      next c2 e heq2 =>
        have h1 := nextByte_core c1
        rw [heq2] at h1
        exact coreUnchanged_trans h0 h1
      next c2 opcode heq2 =>
        have h1 := nextByte_core c1
        rw [heq2] at h1
        exact coreUnchanged_trans h0
          (coreUnchanged_trans h1 (decodeOpcode_core true opcode c2))
    · exact coreUnchanged_trans h0 (decodeOpcode_core false b c1)

theorem findMapping_vram (a : Nat) (h1 : 0x8000 ≤ a) (h2 : a ≤ 0x9FFF) :
    findMappingIn ramMappings a = .ok ⟨.VideoRam, 0x8000, 0x2000⟩ := by
  have e1 : (⟨RamRegion.Bootstrap, 0x0000, 0x100⟩ :
      MappingEntry RamRegion).mappedHere a = false := by
    simp only [MappingEntry.mappedHere, decide_eq_false_iff_not]
    omega
  have e2 : (⟨RamRegion.WorkingRam, 0xC000, 0x2000⟩ :
      MappingEntry RamRegion).mappedHere a = false := by
    simp only [MappingEntry.mappedHere, decide_eq_false_iff_not]
    omega
  have e3 : (⟨RamRegion.VideoRam, 0x8000, 0x2000⟩ :
      MappingEntry RamRegion).mappedHere a = true := by
    simp only [MappingEntry.mappedHere, decide_eq_true_eq]
    omega
  simp [findMappingIn, ramMappings, List.find?, e1, e2, e3]

theorem findMapping_wram (a : Nat) (h1 : 0xC000 ≤ a) (h2 : a ≤ 0xDFFF) :
    findMappingIn ramMappings a = .ok ⟨.WorkingRam, 0xC000, 0x2000⟩ := by
  have e1 : (⟨RamRegion.Bootstrap, 0x0000, 0x100⟩ :
      MappingEntry RamRegion).mappedHere a = false := by
    simp only [MappingEntry.mappedHere, decide_eq_false_iff_not]
    omega
  have e2 : (⟨RamRegion.WorkingRam, 0xC000, 0x2000⟩ :
      MappingEntry RamRegion).mappedHere a = true := by
    simp only [MappingEntry.mappedHere, decide_eq_true_eq]
    omega
  simp [findMappingIn, ramMappings, List.find?, e1, e2]

theorem findMapping_oam (a : Nat) (h1 : 0xFE00 ≤ a) (h2 : a ≤ 0xFE9F) :
    findMappingIn ramMappings a = .ok ⟨.Oam, 0xFE00, 0xA0⟩ := by
  have e1 : (⟨RamRegion.Bootstrap, 0x0000, 0x100⟩ :
      MappingEntry RamRegion).mappedHere a = false := by
    simp only [MappingEntry.mappedHere, decide_eq_false_iff_not]
    omega
  have e2 : (⟨RamRegion.WorkingRam, 0xC000, 0x2000⟩ :
      MappingEntry RamRegion).mappedHere a = false := by
    simp only [MappingEntry.mappedHere, decide_eq_false_iff_not]
    omega
  have e3 : (⟨RamRegion.VideoRam, 0x8000, 0x2000⟩ :
      MappingEntry RamRegion).mappedHere a = false := by
    simp only [MappingEntry.mappedHere, decide_eq_false_iff_not]
    omega
  have e4 : (⟨RamRegion.IoRegisters, 0xFF00, 0x80⟩ :
      MappingEntry RamRegion).mappedHere a = false := by
    simp only [MappingEntry.mappedHere, decide_eq_false_iff_not]
    omega
  have e5 : (⟨RamRegion.Oam, 0xFE00, 0xA0⟩ :
      MappingEntry RamRegion).mappedHere a = true := by
    simp only [MappingEntry.mappedHere, decide_eq_true_eq]
    omega
  simp [findMappingIn, ramMappings, List.find?, e1, e2, e3, e4, e5]

theorem readByte_vram (mem : MappedMemory) (a : Nat)
    (h1 : 0x8000 ≤ a) (h2 : a ≤ 0x9FFF) :
    mem.readByte a = .ok (mem.videoRam (a - 0x8000)) := by
  unfold MappedMemory.readByte
  rw [findMapping_vram a h1 h2]
  show adjustResult 0x8000 (chipRead mem.videoRam 0x2000 (a - 0x8000)) = _
  unfold chipRead
  rw [if_pos (show a - 0x8000 < 0x2000 by omega)]
  rfl

theorem readByte_wram (mem : MappedMemory) (a : Nat)
    (h1 : 0xC000 ≤ a) (h2 : a ≤ 0xDFFF) :
    mem.readByte a = .ok (mem.workingRam (a - 0xC000)) := by
  unfold MappedMemory.readByte
  rw [findMapping_wram a h1 h2]
  show adjustResult 0xC000 (chipRead mem.workingRam 0x2000 (a - 0xC000)) = _
  unfold chipRead
  rw [if_pos (show a - 0xC000 < 0x2000 by omega)]
  rfl

theorem readByte_oam (mem : MappedMemory) (a : Nat)
    (h1 : 0xFE00 ≤ a) (h2 : a ≤ 0xFE9F) :
    mem.readByte a = .ok (mem.oam (a - 0xFE00)) := by
  unfold MappedMemory.readByte
  rw [findMapping_oam a h1 h2]
  show adjustResult 0xFE00 (chipRead mem.oam 0xA0 (a - 0xFE00)) = _
  unfold chipRead
  rw [if_pos (show a - 0xFE00 < 0xA0 by omega)]
  rfl

theorem chipWrite_ok (chip : Nat → Nat) (size a v : Nat) (h : a < size) :
    chipWrite chip size a v = .ok (fun x => if x = a then v else chip x) := by
  unfold chipWrite
  rw [if_pos h]

theorem regionWrite_vram_ok (mem : MappedMemory) (b v : Nat) (chip : Nat → Nat)
    (h : chipWrite mem.videoRam 0x2000 b v = .ok chip) :
    mem.regionWriteByte .VideoRam b v = .ok { mem with videoRam := chip } := by
  unfold MappedMemory.regionWriteByte
  rw [h]

theorem regionWrite_wram_ok (mem : MappedMemory) (b v : Nat) (chip : Nat → Nat)
    (h : chipWrite mem.workingRam 0x2000 b v = .ok chip) :
    mem.regionWriteByte .WorkingRam b v = .ok { mem with workingRam := chip } := by
  unfold MappedMemory.regionWriteByte
  rw [h]

theorem regionWrite_oam_ok (mem : MappedMemory) (b v : Nat) (chip : Nat → Nat)
    (h : chipWrite mem.oam 0xA0 b v = .ok chip) :
    mem.regionWriteByte .Oam b v = .ok { mem with oam := chip } := by
  unfold MappedMemory.regionWriteByte
  rw [h]

theorem writeByte_vram (mem : MappedMemory) (a v : Nat)
    (h1 : 0x8000 ≤ a) (h2 : a ≤ 0x9FFF) :
    mem.writeByte a v =
      .ok { mem with videoRam := fun x => if x = a - 0x8000 then v else mem.videoRam x } := by
  have hc := chipWrite_ok mem.videoRam 0x2000 (a - 0x8000) v (by omega)
  have hr := regionWrite_vram_ok mem (a - 0x8000) v _ hc
  have step1 : mem.writeByte a v
      = adjustResult 0x8000 (mem.regionWriteByte .VideoRam (a - 0x8000) v) := by
    simp only [MappedMemory.writeByte, findMapping_vram a h1 h2]
  rw [step1, hr]
  rfl

theorem writeByte_wram (mem : MappedMemory) (a v : Nat)
    (h1 : 0xC000 ≤ a) (h2 : a ≤ 0xDFFF) :
    mem.writeByte a v =
      .ok { mem with workingRam := fun x => if x = a - 0xC000 then v else mem.workingRam x } := by
  have hc := chipWrite_ok mem.workingRam 0x2000 (a - 0xC000) v (by omega)
  have hr := regionWrite_wram_ok mem (a - 0xC000) v _ hc
  have step1 : mem.writeByte a v
      = adjustResult 0xC000 (mem.regionWriteByte .WorkingRam (a - 0xC000) v) := by
    simp only [MappedMemory.writeByte, findMapping_wram a h1 h2]
  rw [step1, hr]
  rfl

theorem writeByte_oam (mem : MappedMemory) (a v : Nat)
    (h1 : 0xFE00 ≤ a) (h2 : a ≤ 0xFE9F) :
    mem.writeByte a v =
      .ok { mem with oam := fun x => if x = a - 0xFE00 then v else mem.oam x } := by
  have hc := chipWrite_ok mem.oam 0xA0 (a - 0xFE00) v (by omega)
  have hr := regionWrite_oam_ok mem (a - 0xFE00) v _ hc
  have step1 : mem.writeByte a v
      = adjustResult 0xFE00 (mem.regionWriteByte .Oam (a - 0xFE00) v) := by
    simp only [MappedMemory.writeByte, findMapping_oam a h1 h2]
  rw [step1, hr]
  rfl

theorem writeDoubleByte_step (mem mem1 : MappedMemory) (a v : Nat)
    (h : mem.writeByte a (v % 256) = .ok mem1) :
    mem.writeDoubleByte a v = mem1.writeByte ((a + 1) % 65536) (v / 256 % 256) := by
  unfold MappedMemory.writeDoubleByte
  rw [h]

theorem readDoubleByte_step (mem : MappedMemory) (a low high : Nat)
    (h1 : mem.readByte a = .ok low) (h2 : mem.readByte ((a + 1) % 65536) = .ok high) :
    mem.readDoubleByte a = .ok (high * 256 + low) := by
  unfold MappedMemory.readDoubleByte
  rw [h1, h2]

theorem writeDouble_read_ram (mem : MappedMemory) (a v : Nat)
    (ha : writableRamAddress a) (ha1 : writableRamAddress (a + 1)) (hv : v < 65536) :
    ∃ mem2, mem.writeDoubleByte a v = .ok mem2 ∧ mem2.readDoubleByte a = .ok v := by
  have hmod : (a + 1) % 65536 = a + 1 := by
    rcases ha with ⟨u1, u2⟩ | ⟨u1, u2⟩ | ⟨u1, u2⟩ <;> omega
  have hvsplit : v / 256 % 256 * 256 + v % 256 = v := by omega
  rcases ha with ⟨u1, u2⟩ | ⟨u1, u2⟩ | ⟨u1, u2⟩
  · -- VRAM
    have w1 : a + 1 ≤ 0x9FFF := by
      rcases ha1 with ⟨t1, t2⟩ | ⟨t1, t2⟩ | ⟨t1, t2⟩ <;> omega
    have hne : a - 0x8000 ≠ a - 0x7FFF := by omega
    set f1 : Nat → Nat := fun x => if x = a - 0x8000 then v % 256 else mem.videoRam x with hf1
    set M1 : MappedMemory := { mem with videoRam := f1 } with hM1
    set f2 : Nat → Nat :=
      fun x => if x = a + 1 - 0x8000 then v / 256 % 256 else f1 x with hf2
    set M2 : MappedMemory := { M1 with videoRam := f2 } with hM2
    have hw1 : mem.writeByte a (v % 256) = .ok M1 := writeByte_vram mem a (v % 256) u1 u2
    have hw2 : M1.writeByte (a + 1) (v / 256 % 256) = .ok M2 :=
      writeByte_vram M1 (a + 1) (v / 256 % 256) (by omega) w1
    have hwd : mem.writeDoubleByte a v = .ok M2 := by
      rw [writeDoubleByte_step mem M1 a v hw1, hmod, hw2]
    have hr1 : M2.readByte a = .ok (M2.videoRam (a - 0x8000)) := readByte_vram M2 a u1 u2
    have hr2 : M2.readByte ((a + 1) % 65536) = .ok (M2.videoRam (a + 1 - 0x8000)) := by
      rw [hmod]
      exact readByte_vram M2 (a + 1) (by omega) w1
    refine ⟨M2, hwd, ?_⟩
    rw [readDoubleByte_step M2 a _ _ hr1 hr2]
    have e2 : M2.videoRam (a + 1 - 0x8000) = v / 256 % 256 := by
      simp [hM2, hf2]
    have e1 : M2.videoRam (a - 0x8000) = v % 256 := by
      simp [hM2, hf2, hf1, hne]
    rw [e1, e2, hvsplit]
  · -- work RAM
    have w1 : a + 1 ≤ 0xDFFF := by
      rcases ha1 with ⟨t1, t2⟩ | ⟨t1, t2⟩ | ⟨t1, t2⟩ <;> omega
    have hne : a - 0xC000 ≠ a - 0xBFFF := by omega
    set f1 : Nat → Nat := fun x => if x = a - 0xC000 then v % 256 else mem.workingRam x with hf1
    set M1 : MappedMemory := { mem with workingRam := f1 } with hM1
    set f2 : Nat → Nat :=
      fun x => if x = a + 1 - 0xC000 then v / 256 % 256 else f1 x with hf2
    set M2 : MappedMemory := { M1 with workingRam := f2 } with hM2
    have hw1 : mem.writeByte a (v % 256) = .ok M1 := writeByte_wram mem a (v % 256) u1 u2
    have hw2 : M1.writeByte (a + 1) (v / 256 % 256) = .ok M2 :=
      writeByte_wram M1 (a + 1) (v / 256 % 256) (by omega) w1
    have hwd : mem.writeDoubleByte a v = .ok M2 := by
      rw [writeDoubleByte_step mem M1 a v hw1, hmod, hw2]
    have hr1 : M2.readByte a = .ok (M2.workingRam (a - 0xC000)) := readByte_wram M2 a u1 u2
    have hr2 : M2.readByte ((a + 1) % 65536) = .ok (M2.workingRam (a + 1 - 0xC000)) := by
      rw [hmod]
      exact readByte_wram M2 (a + 1) (by omega) w1
    refine ⟨M2, hwd, ?_⟩
    rw [readDoubleByte_step M2 a _ _ hr1 hr2]
    have e2 : M2.workingRam (a + 1 - 0xC000) = v / 256 % 256 := by
      simp [hM2, hf2]
    have e1 : M2.workingRam (a - 0xC000) = v % 256 := by
      simp [hM2, hf2, hf1, hne]
    rw [e1, e2, hvsplit]
  · -- OAM
    have w1 : a + 1 ≤ 0xFE9F := by
      rcases ha1 with ⟨t1, t2⟩ | ⟨t1, t2⟩ | ⟨t1, t2⟩ <;> omega
    have hne : a - 0xFE00 ≠ a - 0xFDFF := by omega
    set f1 : Nat → Nat := fun x => if x = a - 0xFE00 then v % 256 else mem.oam x with hf1
    set M1 : MappedMemory := { mem with oam := f1 } with hM1
    set f2 : Nat → Nat :=
      fun x => if x = a + 1 - 0xFE00 then v / 256 % 256 else f1 x with hf2
    set M2 : MappedMemory := { M1 with oam := f2 } with hM2
    have hw1 : mem.writeByte a (v % 256) = .ok M1 := writeByte_oam mem a (v % 256) u1 u2
    have hw2 : M1.writeByte (a + 1) (v / 256 % 256) = .ok M2 :=
      writeByte_oam M1 (a + 1) (v / 256 % 256) (by omega) w1
    have hwd : mem.writeDoubleByte a v = .ok M2 := by
      rw [writeDoubleByte_step mem M1 a v hw1, hmod, hw2]
    have hr1 : M2.readByte a = .ok (M2.oam (a - 0xFE00)) := readByte_oam M2 a u1 u2
    have hr2 : M2.readByte ((a + 1) % 65536) = .ok (M2.oam (a + 1 - 0xFE00)) := by
      rw [hmod]
      exact readByte_oam M2 (a + 1) (by omega) w1
    refine ⟨M2, hwd, ?_⟩
    rw [readDoubleByte_step M2 a _ _ hr1 hr2]
    have e2 : M2.oam (a + 1 - 0xFE00) = v / 256 % 256 := by
      simp [hM2, hf2]
    have e1 : M2.oam (a - 0xFE00) = v % 256 := by
      simp [hM2, hf2, hf1, hne]
    rw [e1, e2, hvsplit]

theorem readWriteDoubleNamed (bank : RegisterBank) (dst : DoubleRegisters)
    (v : Nat) (hv : v < 65536) :
    (bank.writeDoubleNamed dst v).readDoubleNamed dst = v := by
  cases dst <;>
    simp [RegisterBank.writeDoubleNamed, RegisterBank.readDoubleNamed,
      RegisterBank.writeDouble, RegisterBank.readDouble,
      RegisterBank.getDoubleAddress, RegisterBank.writeSingle,
      RegisterBank.readSingle, DoubleRegisters.index] <;>
    omega

/-- C1 (code evaluated at the failing input): decoding the CB-prefixed opcode
0x00 (`RLC B`) yields a shift instruction whose destination is the
accumulator variant `Acc`, not the `z`-selected operand B; executing it on a
state with A = 0x55 and B = 0x00 overwrites A with 0x00 and leaves the Zero
flag clear, instead of setting Z and leaving A untouched as the claim
states. -/
theorem c1_cb_shift_destination_is_acc :
    (fetchAndDecode cpuRlcB).2
      = .ok (.ByteShift (.SingleRegister .B) .Acc .Left .Rotate) ∧
    (runByteShift .Left .Rotate (.SingleRegister .B) .Acc cpuRlcBFetched).2 = .ok () ∧
    cpuRlcB.registerBank.readSingleNamed .A = 0x55 ∧
    cpuRlcBAfter.registerBank.readSingleNamed .A = 0x00 ∧
    cpuRlcBAfter.registerBank.readSingleNamed .B = 0x00 ∧
    cpuRlcBAfter.registerBank.readBitFlag .Zero = false := by
  decide

/-- C2 (code evaluated at the failing input): the decoder's 16-bit immediate
fetch assembles `first_byte * 256 + second_byte`: after the opcode 0xC3 (JP
nn) followed by the bytes 0x34, 0x12, the decoded jump target is 0x3412 and
not the little-endian 0x1234 = first + 256 * second that the claim states;
PC does advance past both bytes. -/
theorem c2_load_next_u16_byte_swapped :
    (fetchAndDecode (cpuWithProgram [0xC3, 0x34, 0x12])).2
      = .ok (.Jump (.FromSource (.Immediate 0x3412)) .Unconditional) ∧
    (fetchAndDecode (cpuWithProgram [0xC3, 0x34, 0x12])).1.pc = 0xC003 ∧
    (0x3412 : Nat) ≠ 0x34 + 256 * 0x12 := by
  decide

/-- C3 (code evaluated at the failing input): `decode_conditional` selects
the flag from opcode bit 3 and the expected value from bit 4 — swapped
relative to the conditional-JR path.  Opcode 0xC8 (RET Z in the standard
encoding, condition bits y0=1, y1=0) decodes as a return testing
Carry = false (NC), while opcode 0x28 (JR Z, the same condition bits)
decodes as a jump testing Zero = true. -/
theorem c3_conditional_decode_swapped :
    decodeConditional (true, false) = (.Carry, false) ∧
    decodeConditional (false, true) = (.Zero, true) ∧
    (fetchAndDecode (cpuWithProgram [0xC8])).2
      = .ok (.Ret (.TestFlag .Carry false) false) ∧
    (fetchAndDecode (cpuWithProgram [0x28, 0x00])).2
      = .ok (.Jump (.RelativeToPc 0) (.TestFlag .Zero true)) := by
  decide

/-- C4 counterexample: a step that errors during the opcode fetch does not
leave the CPU state exactly as before — on a CPU whose PC points at the
unmapped address 0x0100, `fetch_and_decode` fails with a memory error yet PC
has moved from 0x0100 to 0x0101, falsifying the claim as stated. -/
theorem c4_failed_fetch_advances_pc :
    (fetchAndDecode cpuAtUnmapped).2
      = .error (.RamError (.UnmappedRegion 0x0100)) ∧
    cpuAtUnmapped.pc = 0x0100 ∧
    (fetchAndDecode cpuAtUnmapped).1.pc = 0x0101 ∧
    (fetchAndDecode cpuAtUnmapped).1.pc ≠ cpuAtUnmapped.pc := by
  decide

/-- C4 (amended): for every CPU state, `fetch_and_decode` leaves the register
bank, SP, IME and the whole memory fabric unchanged — in particular a step
that errors before commit mutates nothing except the program counter, which
stays advanced past the bytes consumed (including the byte whose fetch
failed). -/
theorem c4_fetch_preserves_all_but_pc (cpu : Cpu) :
    coreUnchanged cpu (fetchAndDecode cpu).1 :=
  fetchAndDecode_core cpu

/-- C5 (code evaluated at the failing input): the 16-bit add computes both
high-byte ALU operands from the left operand.  With HL = 0x1200 and
SP = 0xF200, ADD HL,SP emits HL := 0x0400 with carry flag `false`
(from `add_u8 0x12 0x12`), although the 8-bit add of the left operand's high
byte 0x12 and the right operand's high byte 0xF2 carries. -/
theorem c5_double_add_uses_left_high_twice :
    binaryDoubleByteAddComputeChanges (.DoubleRegister .HL) .StackPointer
      (.DoubleRegister .HL) cpuDoubleAdd
      = .ok [.DoubleRegisterChange .HL 0x0400,
          .BitFlagsChange none (some false) (some false) (some false)] ∧
    (addU8 0x12 0xF2).carry = true ∧
    (addU8 0x12 0xF2).halfCarry = false := by
  decide

/-- C6 counterexample: writing 0xFF to flag register F through the
single-register path stores 0xFF — the low nibble is 15, not 0 — and an AF
pair write 0xABCD leaves F = 0xCD, falsifying the claim that every write
into F masks bits 3..0 to zero. -/
theorem c6_flag_low_nibble_not_masked :
    (RegisterBank.new.writeSingleNamed .F 0xFF).readSingleNamed .F = 0xFF ∧
    (RegisterBank.new.writeSingleNamed .F 0xFF).readSingleNamed .F % 16 = 15 ∧
    ¬((RegisterBank.new.writeSingleNamed .F 0xFF).readSingleNamed .F % 16 = 0) ∧
    (RegisterBank.new.writeDoubleNamed .AF 0xABCD).readSingleNamed .F = 0xCD := by
  decide

/-- C6 (amended): writes that store into flag register F (index 5) — the
single-register path and the low half of an AF pair write — store the byte
verbatim, with no masking of bits 3..0; the low nibble of F afterwards
equals the low nibble of the written byte. -/
theorem c6_flag_writes_store_verbatim (bank : RegisterBank) (v : Nat) :
    bank.writeSingle 5 v = .ok { bank with r5 := v } ∧
    (bank.writeSingleNamed .F v).readSingleNamed .F = v ∧
    bank.writeDouble 0 v = .ok { bank with r0 := v / 256 % 256, r5 := v % 256 } :=
  ⟨rfl, rfl, rfl⟩

/-- C7 (code evaluated at the failing input): a write of 0xAB through the
I/O window at divider sub-address 0x04 succeeds but lands in the
serial-transfer chip (`get_ram` routes the divider region to
`serial_transfer`), leaving the 16-bit divider counter unchanged at 0x1234
instead of zeroing it; the divider chip's own `write_byte` (which the fabric
never reaches) would reset the counter to 0, and a read at sub-address 0x04
correctly returns the counter's high byte 0x12. -/
theorem c7_divider_write_routed_to_serial :
    ∃ io1, IoRegs.writeByte ioState0 0x04 0xAB = .ok io1 ∧
      io1.dividerRegister = 0x1234 ∧
      io1.serialTransfer 0 = 0xAB ∧
      io1.serialTransfer 1 = 0 ∧
      dividerWriteByte 0 0xAB = .ok 0 ∧
      IoRegs.readByte ioState0 0x04 = .ok 0x12 :=
  ⟨_, rfl, rfl, rfl, rfl, rfl, rfl⟩

/-- C8 counterexample: the I/O window 0xFF00..=0xFF7F is a region of the
memory-map table, yet a read at its last byte 0xFF7F fails with
`UnmappedRegion(0xFF7F)` (sub-address 0x7F is not covered by the I/O
sub-table), falsifying the claim that a read at every region's last byte
succeeds. -/
theorem c8_io_window_last_byte_unmapped :
    MappedMemory.readByte (memWithProgram []) 0xFF7F
      = .error (.UnmappedRegion 0xFF7F) ∧
    errOf (MappedMemory.writeByte (memWithProgram []) 0xFF7F 0)
      = some (.UnmappedRegion 0xFF7F) := by
  decide

/-- C8 (amended): for every memory state and value — reads succeed at the
last byte of boot ROM (0x00FF), VRAM (0x9FFF), work RAM (0xDFFF) and OAM
(0xFE9F), and writes succeed at the last byte of the three RAM chips;
reads and writes at the first byte past each of the five regions (0x0100,
0xA000, 0xE000, 0xFEA0, 0xFF80) fail with `UnmappedRegion` carrying that
global address; the I/O window dispatches through its sub-table, which does
not map sub-address 0x7F, so reads and writes at the window's last byte
0xFF7F fail with `UnmappedRegion(0xFF7F)`. -/
theorem c8_region_boundaries (mem : MappedMemory) (v : Nat) :
    isOkRes (mem.readByte 0x00FF) = true ∧
    isOkRes (mem.readByte 0x9FFF) = true ∧
    isOkRes (mem.readByte 0xDFFF) = true ∧
    isOkRes (mem.readByte 0xFE9F) = true ∧
    isOkRes (mem.writeByte 0x9FFF v) = true ∧
    isOkRes (mem.writeByte 0xDFFF v) = true ∧
    isOkRes (mem.writeByte 0xFE9F v) = true ∧
    mem.readByte 0x0100 = .error (.UnmappedRegion 0x0100) ∧
    mem.readByte 0xA000 = .error (.UnmappedRegion 0xA000) ∧
    mem.readByte 0xE000 = .error (.UnmappedRegion 0xE000) ∧
    mem.readByte 0xFEA0 = .error (.UnmappedRegion 0xFEA0) ∧
    mem.readByte 0xFF80 = .error (.UnmappedRegion 0xFF80) ∧
    errOf (mem.writeByte 0x0100 v) = some (.UnmappedRegion 0x0100) ∧
    errOf (mem.writeByte 0xA000 v) = some (.UnmappedRegion 0xA000) ∧
    errOf (mem.writeByte 0xE000 v) = some (.UnmappedRegion 0xE000) ∧
    errOf (mem.writeByte 0xFEA0 v) = some (.UnmappedRegion 0xFEA0) ∧
    errOf (mem.writeByte 0xFF80 v) = some (.UnmappedRegion 0xFF80) ∧
    mem.readByte 0xFF7F = .error (.UnmappedRegion 0xFF7F) ∧
    errOf (mem.writeByte 0xFF7F v) = some (.UnmappedRegion 0xFF7F) :=
  ⟨rfl, rfl, rfl, rfl, rfl, rfl, rfl, rfl, rfl, rfl, rfl, rfl, rfl, rfl,
    rfl, rfl, rfl, rfl, rfl⟩

/-- C9 (code evaluated at the failing input): the arithmetic right shift
tests the sign with the decimal constant 80 (0x50), so SRA of 0x80 — whose
bit 7 is set — produces 0x40, whose bit 7 is clear: the sign bit is not
preserved (the shifted-out bit 0 does reach the carry flag). -/
theorem c9_sra_sign_bit_lost :
    byteShiftComputeChanges .Right .ArithmeticShift 0x80 false (.SingleRegister .B)
      = [.SingleRegisterChange .B 0x40,
          .BitFlagsChange (some false) (some false) (some false) (some false)] ∧
    Nat.testBit 0x80 7 = true ∧
    Nat.testBit 0x40 7 = false := by
  decide

/-- C10: for every CPU state whose SP − 2 and SP − 1 lie in a writable RAM
region, every 16-bit value `v` and every PUSH source reading `v`, the PUSH
change list is SP := SP−2 followed by the 16-bit memory write of `v` at the
new SP, and executing the PUSH then a POP into any register pair stores `v`
in that pair and restores SP to its value before the PUSH. -/
theorem c10_push_pop_roundtrip (cpu : Cpu) (src : DoubleByteSource)
    (dst : DoubleRegisters) (v : Nat)
    (hv : v < 65536) (hsp : cpu.sp < 65536)
    (hsrc : src.read cpu = .ok v)
    (h1 : writableRamAddress ((cpu.sp + 65534) % 65536))
    (h2 : writableRamAddress ((cpu.sp + 65534) % 65536 + 1)) :
    ∃ cpu1 cpu2,
      pushComputeChange src cpu =
        .ok [.SpChange ((cpu.sp + 65536 - 2) % 65536),
          .MemoryDoubleByteWriteChange (.Immediate ((cpu.sp + 65536 - 2) % 65536)) v] ∧
      runPush src cpu = (cpu1, .ok ()) ∧
      runPop (.DoubleRegister dst) cpu1 = (cpu2, .ok ()) ∧
      cpu2.registerBank.readDoubleNamed dst = v ∧
      cpu2.sp = cpu.sp := by
  have ha : (cpu.sp + 65536 - 2) % 65536 = (cpu.sp + 65534) % 65536 := by omega
  rw [ha]
  set a := (cpu.sp + 65534) % 65536 with haDef
  obtain ⟨mem2, hwd, hrd⟩ := writeDouble_read_ram cpu.mappedRam a v h1 h2 hv
  have hpc : pushComputeChange src cpu
      = .ok [.SpChange a, .MemoryDoubleByteWriteChange (.Immediate a) v] := by
    simp only [pushComputeChange, hsrc, ha]
  set cpu1 : Cpu := { cpu with sp := a, mappedRam := mem2 } with hcpu1
  have hrunPush : runPush src cpu = (cpu1, .ok ()) := by
    simp only [runPush, hpc, commitList, commitChange, MemoryWriteAddress.resolve, hwd]
  have hpop : popComputeChange (.DoubleRegister dst) cpu1
      = .ok [.DoubleRegisterChange dst v, .SpChange ((a + 2) % 65536)] := by
    simp only [popComputeChange, hcpu1, hrd, DoubleByteDestination.changeDestination]
  have hrunPop : runPop (.DoubleRegister dst) cpu1
      = ({ cpu1 with
            registerBank := cpu1.registerBank.writeDoubleNamed dst v
            sp := (a + 2) % 65536 }, .ok ()) := by
    simp only [runPop, hpop, commitList, commitChange]
  refine ⟨cpu1, _, hpc, hrunPush, hrunPop, ?_, ?_⟩
  · exact readWriteDoubleNamed cpu1.registerBank dst v hv
  · show (a + 2) % 65536 = cpu.sp
    omega

/-- C10 witness: the roundtrip theorem applied at the concrete state with
SP = 0xC010 (work RAM), the value 0x1234 pushed from an immediate source and
popped into BC. -/
theorem c10_push_pop_roundtrip_witness :
    (0x1234 : Nat) < 65536 ∧
    cpuPushPop.sp < 65536 ∧
    DoubleByteSource.read (.Immediate 0x1234) cpuPushPop = .ok 0x1234 ∧
    writableRamAddress ((cpuPushPop.sp + 65534) % 65536) ∧
    writableRamAddress ((cpuPushPop.sp + 65534) % 65536 + 1) ∧
    (∃ cpu1 cpu2,
      pushComputeChange (.Immediate 0x1234) cpuPushPop =
        .ok [.SpChange ((cpuPushPop.sp + 65536 - 2) % 65536),
          .MemoryDoubleByteWriteChange
            (.Immediate ((cpuPushPop.sp + 65536 - 2) % 65536)) 0x1234] ∧
      runPush (.Immediate 0x1234) cpuPushPop = (cpu1, .ok ()) ∧
      runPop (.DoubleRegister .BC) cpu1 = (cpu2, .ok ()) ∧
      cpu2.registerBank.readDoubleNamed .BC = 0x1234 ∧
      cpu2.sp = cpuPushPop.sp) :=
  ⟨by decide, by decide, rfl, by decide, by decide,
    c10_push_pop_roundtrip cpuPushPop (.Immediate 0x1234) .BC 0x1234
      (by decide) (by decide) rfl (by decide) (by decide)⟩

end Corrosion
